import Mathlib

/-!
Verification of the Bergamot native messaging host (src/native-host/native_host.py).

The host speaks the Chrome native-messaging framing protocol on stdin/stdout:
each frame is a 4-byte native-order (little-endian on the platforms the host
runs on) unsigned length followed by that many bytes of UTF-8 encoded JSON.
A dispatch loop decodes one frame at a time and answers with one framed
response per recognized message.

Shallow embedding conventions:
- A byte is a Nat below 256; a byte stream is a List Nat.
- A Python str is a List Nat of Unicode code points (Python strings may hold
  lone surrogates, so code points in 0xD800..0xDFFF are representable).
- Json mirrors the JSON-serializable Python values the host handles. Numbers
  are modelled as integers; float values (and the NaN/Infinity extensions of
  the Python json module) are outside the model.
- Python dicts are association lists; dicts produced by json.loads are built
  by repeated insertion exactly as dict(pairs) is, so duplicate keys collapse
  to the last value at the first position.
- stdin is a finite byte list; file reads (read n) return at most n bytes.
- Fallible operations return Option; an uncaught exception in the dispatch
  loop is the fatal outcome (exit code 1) the top-level handler produces.
-/

/-- Code points of a Lean string literal, used for ASCII keyword constants. -/
def pychars (s : String) : List Nat := s.data.map Char.toNat

/-- Decimal digit test on a code point (characters 0..9). -/
def isDigitB (c : Nat) : Bool := 48 ≤ c && c ≤ 57

/-- JSON whitespace skipped by the json module scanner: space, tab, LF, CR. -/
def isWsB (c : Nat) : Bool := c = 32 || c = 9 || c = 10 || c = 13

/-- Skip leading JSON whitespace, as the _w regex of json.decoder does. -/
def skipWs (s : List Nat) : List Nat := s.dropWhile isWsB

/-- JSON values the host can read and write.
Mirrors Python None / bool / int / str / list / dict after json round-trips.
Strings and keys are lists of Unicode code points. -/
inductive Json where
  | null
  | bool (b : Bool)
  | num (n : Int)
  | str (s : List Nat)
  | arr (elems : List Json)
  | obj (fields : List (List Nat × Json))

/-- Lowercase hex digit code point for a nibble, as format string 04x emits. -/
def hexDigit (n : Nat) : Nat := if n < 10 then 48 + n else 87 + n

/-- The four lowercase hex digits of a value below 0x10000. -/
def hex4 (c : Nat) : List Nat :=
  [hexDigit (c / 4096 % 16), hexDigit (c / 256 % 16), hexDigit (c / 16 % 16), hexDigit (c % 16)]

/-- A backslash-u escape, as the ensure_ascii encoder of json.dumps emits. -/
def escapeU (c : Nat) : List Nat := 92 :: 117 :: hex4 c

/-- How json.dumps (ensure_ascii=True, the default used by the host) renders
one character of a string: the two-character shortcuts for quote, backslash
and the five named controls; printable ASCII verbatim; everything else as
backslash-u escapes, astral code points as a surrogate pair. -/
def escapeChar (c : Nat) : List Nat :=
  if c = 34 then [92, 34]
  else if c = 92 then [92, 92]
  else if c = 8 then [92, 98]
  else if c = 12 then [92, 102]
  else if c = 10 then [92, 110]
  else if c = 13 then [92, 114]
  else if c = 9 then [92, 116]
  else if 32 ≤ c ∧ c ≤ 126 then [c]
  else if c < 65536 then escapeU c
  else escapeU (55296 + (c - 65536) / 1024) ++ escapeU (56320 + (c - 65536) % 1024)

/-- Escape every character of a string body, as json.dumps does. -/
def escString : List Nat → List Nat
  | [] => []
  | c :: cs => escapeChar c ++ escString cs

/-- Decimal digits of n, least significant first, with explicit fuel so the
kernel can evaluate it (fuel n suffices since n shrinks by division). -/
def natCharsAux : Nat → Nat → List Nat
  | 0, _ => []
  | _, 0 => []
  | f + 1, n => (n % 10 + 48) :: natCharsAux f (n / 10)

/-- Decimal rendering of a natural number, as repr of a Python int. -/
def natChars (n : Nat) : List Nat :=
  if n = 0 then [48] else (natCharsAux n n).reverse

/-- Decimal rendering of an integer, as json.dumps renders Python ints. -/
def intChars (n : Int) : List Nat :=
  if n < 0 then 45 :: natChars n.natAbs else natChars n.toNat

mutual
/-- json.dumps with its defaults: ensure_ascii=True and the item and key
separators ", " and ": ". The output is a list of code points, all ASCII. -/
def dumps : Json → List Nat
  | .null => [110, 117, 108, 108]
  | .bool true => [116, 114, 117, 101]
  | .bool false => [102, 97, 108, 115, 101]
  | .num n => intChars n
  | .str s => 34 :: escString s ++ [34]
  | .arr [] => [91, 93]
  | .arr (v :: vs) => 91 :: dumps v ++ dumpsArrTail vs
  | .obj [] => [123, 125]
  | .obj (p :: ps) => 123 :: dumpsMember p ++ dumpsObjTail ps

/-- Remaining array items, each preceded by ", ", then the closing bracket. -/
def dumpsArrTail : List Json → List Nat
  | [] => [93]
  | v :: vs => 44 :: 32 :: dumps v ++ dumpsArrTail vs

/-- One object member: quoted escaped key, ": ", value. -/
def dumpsMember : List Nat × Json → List Nat
  | (k, v) => 34 :: escString k ++ 34 :: 58 :: 32 :: dumps v

/-- Remaining object members, each preceded by ", ", then the closing brace. -/
def dumpsObjTail : List (List Nat × Json) → List Nat
  | [] => [125]
  | p :: ps => 44 :: 32 :: dumpsMember p ++ dumpsObjTail ps
end

/-- Value of a hex digit character, any case, as the scanner accepts. -/
def hexVal (c : Nat) : Option Nat :=
  if 48 ≤ c ∧ c ≤ 57 then some (c - 48)
  else if 97 ≤ c ∧ c ≤ 102 then some (c - 87)
  else if 65 ≤ c ∧ c ≤ 70 then some (c - 55)
  else none

/-- Read exactly four hex digits, the XXXX of a backslash-u escape. -/
def parseU4 : List Nat → Option (Nat × List Nat)
  | a :: b :: c :: d :: r =>
    match hexVal a, hexVal b, hexVal c, hexVal d with
    | some x, some y, some z, some w => some (x * 4096 + y * 256 + z * 16 + w, r)
    | _, _, _, _ => none
  | _ => none

/-- Body of a JSON string literal after the opening quote, as scanstring of
json.decoder (strict mode) reads it: raw control characters are an error,
backslash escapes are the seven shortcuts plus backslash-u, and a high
surrogate escape immediately followed by a low surrogate escape combines
into one astral code point; any other surrogate escape stands alone.
Fuel at least the length of the input suffices: every step consumes input. -/
def parseStrAux : Nat → List Nat → Option (List Nat × List Nat)
  | 0, _ => none
  | _ + 1, [] => none
  | f + 1, c :: r =>
    if c = 34 then some ([], r)
    else if c = 92 then
      match r with
      | [] => none
      | e :: r2 =>
        if e = 34 then (parseStrAux f r2).map (fun p => (34 :: p.1, p.2))
        else if e = 92 then (parseStrAux f r2).map (fun p => (92 :: p.1, p.2))
        else if e = 47 then (parseStrAux f r2).map (fun p => (47 :: p.1, p.2))
        else if e = 98 then (parseStrAux f r2).map (fun p => (8 :: p.1, p.2))
        else if e = 102 then (parseStrAux f r2).map (fun p => (12 :: p.1, p.2))
        else if e = 110 then (parseStrAux f r2).map (fun p => (10 :: p.1, p.2))
        else if e = 114 then (parseStrAux f r2).map (fun p => (13 :: p.1, p.2))
        else if e = 116 then (parseStrAux f r2).map (fun p => (9 :: p.1, p.2))
        else if e = 117 then
          match parseU4 r2 with
          | none => none
          | some (u, r3) =>
            if 55296 ≤ u ∧ u ≤ 56319 then
              if r3.take 2 = [92, 117] then
                match parseU4 (r3.drop 2) with
                | none => none
                | some (u2, r5) =>
                  if 56320 ≤ u2 ∧ u2 ≤ 57343 then
                    (parseStrAux f r5).map
                      (fun p => ((65536 + (u - 55296) * 1024 + (u2 - 56320)) :: p.1, p.2))
                  else (parseStrAux f r3).map (fun p => (u :: p.1, p.2))
              else (parseStrAux f r3).map (fun p => (u :: p.1, p.2))
            else (parseStrAux f r3).map (fun p => (u :: p.1, p.2))
        else none
    else if c < 32 then none
    else (parseStrAux f r).map (fun p => (c :: p.1, p.2))

/-- Fold decimal digit characters into the number they denote. -/
def digitsVal (l : List Nat) : Nat := l.foldl (fun a c => a * 10 + (c - 48)) 0

/-- The integer part of the NUMBER_RE regex of json.scanner: a single 0, or a
nonzero digit followed by any digits. Maximal munch on the digits. -/
def parseUInt (s : List Nat) : Option (Nat × List Nat) :=
  match s with
  | [] => none
  | c :: r =>
    if c = 48 then some (0, r)
    else if 49 ≤ c ∧ c ≤ 57 then
      some (digitsVal (c :: r.takeWhile isDigitB), r.dropWhile isDigitB)
    else none

/-- After an integer part, a dot or an exponent letter would make the token a
float. Floats are outside the model: the parser reports failure there, where
the real scanner would produce a Python float. -/
def floatFollows (r : List Nat) : Bool :=
  match r with
  | c :: _ => c = 46 || c = 101 || c = 69
  | [] => false

/-- A JSON number token restricted to integers: optional minus, then the
integer grammar 0 or [1-9][0-9]*. -/
def parseNumber (s : List Nat) : Option (Int × List Nat) :=
  match s with
  | [] => none
  | c :: r =>
    if c = 45 then
      match parseUInt r with
      | some (n, r2) => if floatFollows r2 then none else some (-(n : Int), r2)
      | none => none
    else
      match parseUInt (c :: r) with
      | some (n, r2) => if floatFollows r2 then none else some ((n : Int), r2)
      | none => none

/-- dict insertion: an existing key keeps its position and takes the new
value, a new key is appended. Exactly the effect of d[k] = v on a dict whose
keys are unique, which insertion preserves. -/
def dictInsert (l : List (List Nat × Json)) (k : List Nat) (v : Json) :
    List (List Nat × Json) :=
  if l.any (fun p => p.1 == k) then l.map (fun p => if p.1 == k then (k, v) else p)
  else l ++ [(k, v)]

/-- dict(pairs): fold the parsed members into a dict by insertion. -/
def dictOfPairs (ps : List (List Nat × Json)) : List (List Nat × Json) :=
  ps.foldl (fun l p => dictInsert l p.1 p.2) []

mutual
/-- One JSON value at the current position (no leading whitespace skip, as
scan_once of json.scanner): a quoted string, an object, an array, one of the
three keyword literals compared as 4- or 5-character slices exactly as the
scanner does, or a number. NaN and the Infinity literals are float constants
and outside the model. Fuel bounds the nesting the parser will enter;
parseVal with fuel f + 1 hands f to the values and member lists one level
down. -/
def parseVal : Nat → List Nat → Option (Json × List Nat)
  | 0, _ => none
  | f + 1, s =>
    match s with
    | [] => none
    | c :: r =>
      if c = 34 then
        match parseStrAux r.length r with
        | some (cs, r2) => some (.str cs, r2)
        | none => none
      else if c = 123 then
        let r1 := skipWs r
        if r1.head? = some 125 then some (.obj [], r1.tail)
        else if r1.head? = some 34 then
          match parseStrAux r1.tail.length r1.tail with
          | some (k, r2) =>
            let r3 := skipWs r2
            if r3.head? = some 58 then
              match parseVal f (skipWs r3.tail) with
              | some (v, r4) =>
                match parseObjTail f r4 with
                | some (ps, r5) => some (.obj (dictOfPairs ((k, v) :: ps)), r5)
                | none => none
              | none => none
            else none
          | none => none
        else none
      else if c = 91 then
        let r1 := skipWs r
        if r1.head? = some 93 then some (.arr [], r1.tail)
        else
          match parseVal f r1 with
          | some (v, r2) =>
            match parseArrTail f r2 with
            | some (vs, r3) => some (.arr (v :: vs), r3)
            | none => none
          | none => none
      else if (c :: r).take 4 = [110, 117, 108, 108] then some (.null, (c :: r).drop 4)
      else if (c :: r).take 4 = [116, 114, 117, 101] then some (.bool true, (c :: r).drop 4)
      else if (c :: r).take 5 = [102, 97, 108, 115, 101] then some (.bool false, (c :: r).drop 5)
      else if c = 45 ∨ isDigitB c then
        match parseNumber (c :: r) with
        | some (n, r2) => some (.num n, r2)
        | none => none
      else none

/-- After one array element: skip whitespace, then a closing bracket ends the
array and a comma (whitespace skipped after it) starts the next element.
Anything else is the delimiter error of JSONArray. -/
def parseArrTail : Nat → List Nat → Option (List Json × List Nat)
  | 0, _ => none
  | f + 1, s =>
    let s1 := skipWs s
    if s1.head? = some 93 then some ([], s1.tail)
    else if s1.head? = some 44 then
      match parseVal f (skipWs s1.tail) with
      | some (v, r2) =>
        match parseArrTail f r2 with
        | some (vs, r3) => some (v :: vs, r3)
        | none => none
      | none => none
    else none

/-- After one object member: skip whitespace, then a closing brace ends the
object and a comma starts the next member, which must be a quoted key, then
whitespace, a colon, whitespace and a value, as JSONObject reads it. -/
def parseObjTail : Nat → List Nat → Option (List (List Nat × Json) × List Nat)
  | 0, _ => none
  | f + 1, s =>
    let s1 := skipWs s
    if s1.head? = some 125 then some ([], s1.tail)
    else if s1.head? = some 44 then
      let s2 := skipWs s1.tail
      if s2.head? = some 34 then
        match parseStrAux s2.tail.length s2.tail with
        | some (k, r2) =>
          let r3 := skipWs r2
          if r3.head? = some 58 then
            match parseVal f (skipWs r3.tail) with
            | some (v, r4) =>
              match parseObjTail f r4 with
              | some (ps, r5) => some ((k, v) :: ps, r5)
              | none => none
            | none => none
          else none
        | none => none
      else none
    else none
end

/-- json.loads: skip leading whitespace, read one value, skip trailing
whitespace, and demand the end of the document (the Extra data error
otherwise). Fuel one more than the input length is enough for any document
the parser accepts, since every nesting level consumes input. -/
def loads (s : List Nat) : Option Json :=
  match parseVal (s.length + 1) (skipWs s) with
  | some (v, r) => if skipWs r = [] then some v else none
  | none => none

/-- One character of a Python string repr, with quote character q: backslash
escapes for the quote, backslash and the three named controls, backslash-x
for other ASCII controls and DEL. Code points at 128 and above are kept
verbatim; CPython consults the Unicode printability tables there, which the
model does not reproduce (this only affects the rendering of exotic strings
nested inside an unknown type value). -/
def pyReprEsc (q : Nat) (c : Nat) : List Nat :=
  if c = q then [92, q]
  else if c = 92 then [92, 92]
  else if c = 10 then [92, 110]
  else if c = 13 then [92, 114]
  else if c = 9 then [92, 116]
  else if c < 32 ∨ c = 127 then [92, 120, hexDigit (c / 16 % 16), hexDigit (c % 16)]
  else [c]

/-- Body of a Python string repr under a chosen quote character. -/
def pyReprStrBody (q : Nat) : List Nat → List Nat
  | [] => []
  | c :: cs => pyReprEsc q c ++ pyReprStrBody q cs

/-- repr of a Python str: single-quoted, except double-quoted when the string
contains a single quote but no double quote. -/
def pyReprStr (s : List Nat) : List Nat :=
  let q := if s.contains 39 && !(s.contains 34) then 34 else 39
  q :: pyReprStrBody q s ++ [q]

mutual
/-- repr of the Python value a Json stands for: None, True, False, decimal
integers, quoted strings, and bracketed containers with ", " separators. -/
def pyRepr : Json → List Nat
  | .null => [78, 111, 110, 101]
  | .bool true => [84, 114, 117, 101]
  | .bool false => [70, 97, 108, 115, 101]
  | .num n => intChars n
  | .str s => pyReprStr s
  | .arr [] => [91, 93]
  | .arr (v :: vs) => 91 :: pyRepr v ++ pyReprArrTail vs
  | .obj [] => [123, 125]
  | .obj (p :: ps) => 123 :: pyReprMember p ++ pyReprObjTail ps

/-- Remaining list elements of a repr, then the closing bracket. -/
def pyReprArrTail : List Json → List Nat
  | [] => [93]
  | v :: vs => 44 :: 32 :: pyRepr v ++ pyReprArrTail vs

/-- One dict member of a repr: repr of the key, ": ", repr of the value. -/
def pyReprMember : List Nat × Json → List Nat
  | (k, v) => pyReprStr k ++ 58 :: 32 :: pyRepr v

/-- Remaining dict members of a repr, then the closing brace. -/
def pyReprObjTail : List (List Nat × Json) → List Nat
  | [] => [125]
  | p :: ps => 44 :: 32 :: pyReprMember p ++ pyReprObjTail ps
end

/-- str() of the Python value a Json stands for, as an f-string renders it:
the string itself for a str, repr for everything else. -/
def pythonStr : Json → List Nat
  | .str s => s
  | .null => pyRepr .null
  | .bool b => pyRepr (.bool b)
  | .num n => pyRepr (.num n)
  | .arr l => pyRepr (.arr l)
  | .obj l => pyRepr (.obj l)

/-- UTF-8 bytes of one code point; surrogates make str.encode raise, which
is the none outcome. -/
def utf8EncodeChar (c : Nat) : Option (List Nat) :=
  if c < 128 then some [c]
  else if c < 2048 then some [192 + c / 64, 128 + c % 64]
  else if 55296 ≤ c ∧ c ≤ 57343 then none
  else if c < 65536 then some [224 + c / 4096, 128 + c / 64 % 64, 128 + c % 64]
  else if c < 1114112 then
    some [240 + c / 262144, 128 + c / 4096 % 64, 128 + c / 64 % 64, 128 + c % 64]
  else none

/-- str.encode of a whole string. -/
def utf8Encode : List Nat → Option (List Nat)
  | [] => some []
  | c :: cs =>
    match utf8EncodeChar c, utf8Encode cs with
    | some b, some bs => some (b ++ bs)
    | _, _ => none

/-- UTF-8 continuation byte test. -/
def isCont (b : Nat) : Bool := 128 ≤ b && b ≤ 191

/-- Validity of the first continuation byte of a multi-byte UTF-8 sequence,
whose admissible range depends on the lead byte (excluding overlong
encodings, surrogates and code points above 0x10FFFF exactly as the strict
decoder does). -/
def contOk (b c1 : Nat) : Bool :=
  if b = 224 then 160 ≤ c1 && c1 ≤ 191
  else if b = 237 then 128 ≤ c1 && c1 ≤ 159
  else if b = 240 then 144 ≤ c1 && c1 ≤ 191
  else if b = 244 then 128 ≤ c1 && c1 ≤ 143
  else isCont c1

/-- Decode one UTF-8 sequence at the head of the byte list: the code point
and the remaining bytes. Truncated sequences, stray continuation bytes,
invalid lead bytes (0x80..0xC1, 0xF5..) and out-of-range continuations are
errors, as in the strict UTF-8 codec. -/
def utf8Head : List Nat → Option (Nat × List Nat)
  | [] => none
  | b :: rest =>
    if b < 128 then some (b, rest)
    else if 194 ≤ b ∧ b ≤ 223 then
      match rest with
      | c1 :: r2 => if isCont c1 then some ((b - 192) * 64 + (c1 - 128), r2) else none
      | [] => none
    else if 224 ≤ b ∧ b ≤ 239 then
      match rest with
      | c1 :: c2 :: r2 =>
        if contOk b c1 && isCont c2 then
          some ((b - 224) * 4096 + (c1 - 128) * 64 + (c2 - 128), r2)
        else none
      | _ => none
    else if 240 ≤ b ∧ b ≤ 244 then
      match rest with
      | c1 :: c2 :: c3 :: r2 =>
        if contOk b c1 && isCont c2 && isCont c3 then
          some ((b - 240) * 262144 + (c1 - 128) * 4096 + (c2 - 128) * 64 + (c3 - 128), r2)
        else none
      | _ => none
    else none

/-- Decode a whole byte list, one sequence at a time. Fuel at least the
length of the input suffices, since every sequence consumes a byte. -/
def utf8DecodeAux : Nat → List Nat → Option (List Nat)
  | _, [] => some []
  | 0, _ :: _ => none
  | f + 1, b :: rest =>
    match utf8Head (b :: rest) with
    | some (u, r2) => (utf8DecodeAux f r2).map (fun l => u :: l)
    | none => none

/-- bytes.decode with the default strict error handler: the standard UTF-8
decoder that rejects truncated sequences, stray continuation bytes, overlong
encodings, encoded surrogates and code points above 0x10FFFF. -/
def utf8Decode (l : List Nat) : Option (List Nat) := utf8DecodeAux l.length l

/-- struct.pack with format at-I on the hosts the relay targets: four bytes,
little-endian. Callers must keep the value below 2 to the 32; struct.pack
raises beyond that, which send_message models explicitly. -/
def pack4 (n : Nat) : List Nat := [n % 256, n / 256 % 256, n / 65536 % 256, n / 16777216 % 256]

/-- struct.unpack of four little-endian bytes (only applied to length-4
lists; other shapes make struct.unpack raise and are handled by callers). -/
def unpack4 (l : List Nat) : Nat :=
  match l with
  | [a, b, c, d] => a + 256 * b + 65536 * c + 16777216 * d
  | _ => 0

/-- send_message: dump the value to UTF-8 JSON bytes, write the packed 4-byte
length, then the payload, then flush. The try/except wrapper means a failure
(encoding error, or a payload of 2 to the 32 bytes or more making struct.pack
raise before anything is written) produces no output at all. The returned
list is the byte sequence written to stdout. -/
def send_message (m : Json) : List Nat :=
  match utf8Encode (dumps m) with
  | some encoded =>
    if encoded.length < 4294967296 then pack4 encoded.length ++ encoded else []
  | none => []

/-- Outcome of one read_message call: clean SystemExit (propagates through
the except-Exception handlers, terminating the process with that code), no
message (the error path that returns None), or a decoded message. -/
inductive ReadResult where
  | exit (code : Nat)
  | noMsg
  | msg (j : Json)

/-- Bytes left on stdin after one read_message call: the 4-byte prefix plus
the declared length are consumed (a short final read consumes the rest). -/
def restOf (input : List Nat) : List Nat :=
  if input.length < 4 then [] else input.drop (4 + unpack4 (input.take 4))

/-- One read_message call on the remaining stdin bytes. An empty read of the
length prefix is sys.exit(0). A prefix short of 4 bytes makes struct.unpack
raise, caught as the None outcome. Otherwise the declared number of payload
bytes is read (fewer if the stream ends first: buffered read returns what is
available at EOF without error), UTF-8 decoded and JSON parsed; any failure
is caught and returns the None outcome. -/
def readResult (input : List Nat) : ReadResult :=
  if input.isEmpty then .exit 0
  else if input.length < 4 then .noMsg
  else
    match utf8Decode ((input.drop 4).take (unpack4 (input.take 4))) with
    | none => .noMsg
    | some chars =>
      match loads chars with
      | none => .noMsg
      | some j => .msg j

/-- read_message as the dispatch loop consumes it: outcome plus what remains
of stdin. -/
def read_message (input : List Nat) : ReadResult × List Nat :=
  (readResult input, restOf input)

/-- Python truthiness of a decoded JSON value: None, False, zero, and empty
strings, lists and dicts are falsy. -/
def falsy : Json → Bool
  | .null => true
  | .bool b => !b
  | .num n => n == 0
  | .str s => s.isEmpty
  | .arr l => l.isEmpty
  | .obj l => l.isEmpty

/-- dict.get on the fields of a decoded object (keys are unique there, so
first match is the dict lookup). -/
def getField (fields : List (List Nat × Json)) (k : List Nat) : Option Json :=
  match fields with
  | [] => none
  | p :: ps => if p.1 == k then some p.2 else getField ps k

/-- The state of the port configuration file at the moment it is read:
missing, present but failing to open or parse, or holding a JSON value. -/
inductive PortFile where
  | absent
  | unreadable
  | content (j : Json)

/-- get_vscode_port: a missing file, a read or parse failure, a non-dict
document (whose .get raises, caught by the handler) and a dict without a
port key all yield the default 5000; otherwise the port value is returned
as-is (data.get does not validate its type). -/
def get_vscode_port (pf : PortFile) : Json :=
  match pf with
  | .absent => .num 5000
  | .unreadable => .num 5000
  | .content (.obj fields) => (getField fields (pychars "port")).getD (.num 5000)
  | .content _ => .num 5000

/-- The body of an HTTP response, as the code observes it. The body is
external data, so it is carried as what the two observations the code makes
of it evaluate to: empty when response.text is falsy, jsonBody j when the
text is truthy and response.json() parses it to the JSON value j, and
invalid e when response.json() raises, with e the str() text of the raised
exception. A truthy body whose JSON value contains floats lies outside the
model, as floats do throughout it. -/
inductive RespBody where
  | empty
  | jsonBody (j : Json)
  | invalid (errText : List Nat)

/-- What one HTTP request from the host comes back as: a response with final
status and observed body, a connection error
(requests.exceptions.ConnectionError, which includes ConnectTimeout by
inheritance), a read timeout, or any other exception with its str() text. -/
inductive HttpOutcome where
  | response (status : Nat) (body : RespBody)
  | connError
  | timeout
  | otherError (msg : List Nat)

/-- response.ok of requests: ok is defined as raise_for_status not raising,
and raise_for_status raises exactly for the client- and server-error range
400-599, so every status outside that range is ok -- including statuses
600-999, which http.client accepts in a status line. -/
def responseOk (status : Nat) : Bool :=
  if 400 ≤ status ∧ status < 600 then false else true

/-- forward_to_vscode, as a function of the outcome of its single POST (the
endpooint and data fields of the message and the configured port only shape
the request, which the outcome argument abstracts). On an ok status
(response.ok, every status outside 400-599) data is the parsed body, or
None for a falsy response.text; a body that response.json() rejects raises
inside the try, landing in the generic except branch with str(e). The
except clauses make the function total: every outcome maps to a result
dict, never a raised exception. -/
def forward_to_vscode (outcome : HttpOutcome) : List (List Nat × Json) :=
  match outcome with
  | .response status body =>
    if responseOk status then
      match body with
      | .empty =>
        [(pychars "success", .bool true), (pychars "status", .num status),
         (pychars "data", .null)]
      | .jsonBody j =>
        [(pychars "success", .bool true), (pychars "status", .num status),
         (pychars "data", j)]
      | .invalid e =>
        [(pychars "success", .bool false), (pychars "error", .str e)]
    else
      [(pychars "success", .bool false),
       (pychars "error", .str (pychars "VS Code returned status " ++ natChars status))]
  | .connError =>
    [(pychars "success", .bool false),
     (pychars "error", .str (pychars "Cannot connect to VS Code extension. Is it running?"))]
  | .timeout =>
    [(pychars "success", .bool false),
     (pychars "error", .str (pychars "Request to VS Code extension timed out"))]
  | .otherError m =>
    [(pychars "success", .bool false), (pychars "error", .str m)]

/-- The external world one dispatch iteration can touch: the port file as it
reads it, and the outcomes of the forward POST and the status GET. -/
structure Env where
  portFile : PortFile
  forwardOutcome : HttpOutcome
  statusOutcome : HttpOutcome

/-- response.ok of the status probe (every status outside the 400-599 range
that raise_for_status raises for); any exception (bare except) is False. -/
def statusOk : HttpOutcome → Bool
  | .response st _ => responseOk st
  | _ => false

/-- Test whether message.get of type equals a given keyword string (equality
with a str is only true for an equal str). -/
def isType (t : Option Json) (kw : List Nat) : Bool :=
  match t with
  | some (.str s) => s == kw
  | _ => false

/-- The error text for an unrecognized type, with the f-string rendering of
the type value (absent gives None, rendered as the text None). -/
def unknownTypeMsg (t : Option Json) : List Nat :=
  pychars "Unknown message type: " ++ pythonStr (t.getD .null)

/-- One dispatch of a truthy decoded message: the response sent back, or none
when the handler body raises (message.get on a non-dict message raises
AttributeError, which escapes main and is fatal). -/
def dispatch (env : Env) (message : Json) : Option Json :=
  match message with
  | .obj fields =>
    let t := getField fields (pychars "type")
    if isType t (pychars "ping") then
      some (.obj [(pychars "type", .str (pychars "pong")),
                  (pychars "echo", (getField fields (pychars "data")).getD .null)])
    else if isType t (pychars "get_port") then
      some (.obj [(pychars "type", .str (pychars "port")),
                  (pychars "port", get_vscode_port env.portFile)])
    else if isType t (pychars "forward") then
      some (.obj ((pychars "type", .str (pychars "forward_result")) ::
                  forward_to_vscode env.forwardOutcome))
    else if isType t (pychars "check_status") then
      some (.obj [(pychars "type", .str (pychars "status")),
                  (pychars "vscode_running", .bool (statusOk env.statusOutcome)),
                  (pychars "port", get_vscode_port env.portFile)])
    else
      some (.obj [(pychars "type", .str (pychars "error")),
                  (pychars "error", .str (unknownTypeMsg t))])
  | _ => none

/-- The whole process: the main loop under the top-level exception handler.
Returns the frames written to stdout (each element one send_message call)
and the process exit code. Falsy messages (decode failures and falsy values)
are skipped without a response; sys.exit(0) on end of stream passes through
the except-Exception handlers; any exception escaping the loop body is
caught at top level and exits with code 1, emitting nothing further. -/
def mainLoop (env : Env) : List Nat → List (List Nat) × Nat
  | [] => ([], 0)
  | b :: input =>
    match readResult (b :: input) with
    | .exit c => ([], c)
    | .noMsg => mainLoop env (restOf (b :: input))
    | .msg j =>
      if falsy j then mainLoop env (restOf (b :: input))
      else
        match dispatch env j with
        | none => ([], 1)
        | some resp =>
          let tail := mainLoop env (restOf (b :: input))
          (send_message resp :: tail.1, tail.2)
termination_by input => input.length
decreasing_by
  all_goals unfold restOf
  all_goals split
  all_goals simp_all

/-- A continuation on which the maximal-munch number token would not extend:
empty, or starting with no digit, dot or exponent letter. Text the printer
emits after a number (separators and closers) satisfies this. -/
def numSafe (r : List Nat) : Bool :=
  match r with
  | [] => true
  | c :: _ => !(isDigitB c || c = 46 || c = 101 || c = 69)

/-- High surrogate code point test. -/
def isHiSurr (c : Nat) : Bool := 55296 ≤ c && c ≤ 56319

/-- Low surrogate code point test. -/
def isLoSurr (c : Nat) : Bool := 56320 ≤ c && c ≤ 57343

/-- A string whose code points are ones a Python str can hold and in which no
high surrogate is immediately followed by a low surrogate. The dumps output
for such an adjacent pair is indistinguishable from the escape of one astral
code point, so the decoder folds the pair into one character; every other
string reads back unchanged. -/
def strOk : List Nat → Bool
  | [] => true
  | [c] => c < 1114112
  | c :: c2 :: cs => c < 1114112 && !(isHiSurr c && isLoSurr c2) && strOk (c2 :: cs)

/-- Pairwise distinct keys, as any member list denoting a Python dict has. -/
def keysNodup : List (List Nat × Json) → Bool
  | [] => true
  | p :: ps => !(ps.any (fun q => q.1 == p.1)) && keysNodup ps

mutual
/-- Values that denote a Python object faithfully enough to round-trip: all
strings satisfy strOk and all objects have distinct keys (automatic for a
value that came from a Python dict). -/
def wfb : Json → Bool
  | .obj l => keysNodup l && wfbFields l
  | .arr l => wfbList l
  | .str s => strOk s
  | .num _ => true
  | .bool _ => true
  | .null => true

/-- wfb on every element of a list. -/
def wfbList : List Json → Bool
  | [] => true
  | v :: vs => wfb v && wfbList vs

/-- strOk on every key and wfb on every value of a member list. -/
def wfbFields : List (List Nat × Json) → Bool
  | [] => true
  | (k, v) :: ps => strOk k && wfb v && wfbFields ps
end

mutual
/-- Parser fuel needed for a value: one plus the larger of the fuel of the
first child and of the rest of the sibling list, matching how parseVal hands
fuel down. -/
def fsize : Json → Nat
  | .arr (v :: vs) => 1 + max (fsize v) (lsize vs)
  | .obj ((_, v) :: ps) => 1 + max (fsize v) (psize ps)
  | .arr [] => 1
  | .obj [] => 1
  | .str _ => 1
  | .num _ => 1
  | .bool _ => 1
  | .null => 1

/-- Fuel needed by parseArrTail on a printed element list. -/
def lsize : List Json → Nat
  | [] => 1
  | v :: vs => 1 + max (fsize v) (lsize vs)

/-- Fuel needed by parseObjTail on a printed member list. -/
def psize : List (List Nat × Json) → Nat
  | [] => 1
  | (_, v) :: ps => 1 + max (fsize v) (psize ps)
end

/-! Helper lemmas: whitespace, hex escapes, decimal digits. -/

theorem natCharsAux_zero (f : Nat) : natCharsAux f 0 = [] := by
  cases f <;> rfl

theorem natCharsAux_succ (f m : Nat) :
    natCharsAux (f + 1) (m + 1) = ((m + 1) % 10 + 48) :: natCharsAux f ((m + 1) / 10) := rfl

theorem skipWs_of_head (c : Nat) (t : List Nat) (h : isWsB c = false) :
    skipWs (c :: t) = c :: t := by
  simp [skipWs, List.dropWhile_cons, h]

theorem hexVal_hexDigit (k : Nat) (h : k < 16) : hexVal (hexDigit k) = some k := by
  interval_cases k <;> rfl

theorem parseU4_hex4 (u : Nat) (t : List Nat) (h : u < 65536) :
    parseU4 (hex4 u ++ t) = some (u, t) := by
  have h1 : u / 4096 % 16 < 16 := Nat.mod_lt _ (by norm_num)
  have h2 : u / 256 % 16 < 16 := Nat.mod_lt _ (by norm_num)
  have h3 : u / 16 % 16 < 16 := Nat.mod_lt _ (by norm_num)
  have h4 : u % 16 < 16 := Nat.mod_lt _ (by norm_num)
  simp only [hex4, List.cons_append, List.nil_append, parseU4,
    hexVal_hexDigit _ h1, hexVal_hexDigit _ h2, hexVal_hexDigit _ h3, hexVal_hexDigit _ h4]
  have : u / 4096 % 16 * 4096 + u / 256 % 16 * 256 + u / 16 % 16 * 16 + u % 16 = u := by omega
  rw [this]

theorem digitsVal_append_digit (l : List Nat) (c : Nat) :
    digitsVal (l ++ [c]) = digitsVal l * 10 + (c - 48) := by
  simp [digitsVal, List.foldl_append]

theorem natCharsAux_digits (f n : Nat) : ∀ c ∈ natCharsAux f n, 48 ≤ c ∧ c ≤ 57 := by
  induction f generalizing n with
  | zero => simp [natCharsAux]
  | succ f ih =>
    cases n with
    | zero => simp [natCharsAux]
    | succ m =>
      rw [natCharsAux_succ]
      intro c hc
      rcases List.mem_cons.mp hc with h | h
      · subst h; have := Nat.mod_lt (m + 1) (y := 10) (by norm_num); omega
      · exact ih _ c h

theorem digitsVal_natCharsAux (f n : Nat) (h : n ≤ f) :
    digitsVal (natCharsAux f n).reverse = n := by
  induction f generalizing n with
  | zero =>
    interval_cases n
    simp [natCharsAux, digitsVal]
  | succ f ih =>
    cases n with
    | zero => simp [natCharsAux, digitsVal]
    | succ m =>
      rw [natCharsAux_succ, List.reverse_cons, digitsVal_append_digit,
        ih ((m + 1) / 10) (by omega)]
      omega

theorem natCharsAux_last (f n : Nat) (h1 : 0 < n) (h2 : n ≤ f) :
    ∃ l c, natCharsAux f n = l ++ [c] ∧ 49 ≤ c ∧ c ≤ 57 := by
  induction f generalizing n with
  | zero => omega
  | succ f ih =>
    cases n with
    | zero => omega
    | succ m =>
      rw [natCharsAux_succ]
      by_cases h10 : (m + 1) / 10 = 0
      · refine ⟨[], (m + 1) % 10 + 48, ?_, by omega, by omega⟩
        rw [h10, natCharsAux_zero]
        simp
      · obtain ⟨l, c, hl, hc1, hc2⟩ := ih ((m + 1) / 10) (by omega) (by omega)
        exact ⟨((m + 1) % 10 + 48) :: l, c, by rw [hl]; simp, hc1, hc2⟩

theorem natChars_zero : natChars 0 = [48] := rfl

theorem natChars_pos_head (n : Nat) (h : 0 < n) :
    ∃ c t, natChars n = c :: t ∧ 49 ≤ c ∧ c ≤ 57 ∧ ∀ d ∈ t, 48 ≤ d ∧ d ≤ 57 := by
  obtain ⟨l, c, hl, h1, h2⟩ := natCharsAux_last n n h (le_refl n)
  refine ⟨c, l.reverse, ?_, h1, h2, ?_⟩
  · rw [natChars, if_neg (by omega), hl]
    simp
  · intro d hd
    exact natCharsAux_digits n n d (by rw [hl]; simp at hd ⊢; exact Or.inl hd)

theorem digitsVal_natChars (n : Nat) : digitsVal (natChars n) = n := by
  rcases Nat.eq_zero_or_pos n with h | h
  · subst h; rfl
  · rw [natChars, if_neg (by omega)]
    exact digitsVal_natCharsAux n n (le_refl n)

theorem natChars_digits (n : Nat) : ∀ c ∈ natChars n, 48 ≤ c ∧ c ≤ 57 := by
  rcases Nat.eq_zero_or_pos n with h | h
  · subst h; intro c hc; simp [natChars_zero] at hc; omega
  · obtain ⟨c, t, hct, h1, h2, ht⟩ := natChars_pos_head n h
    rw [hct]
    intro d hd
    rcases List.mem_cons.mp hd with h | h
    · omega
    · exact ht d h

theorem takeWhile_digits_append (t rest : List Nat)
    (ht : ∀ d ∈ t, isDigitB d = true)
    (hr : ∀ c, rest.head? = some c → isDigitB c = false) :
    (t ++ rest).takeWhile isDigitB = t ∧ (t ++ rest).dropWhile isDigitB = rest := by
  induction t with
  | nil =>
    simp only [List.nil_append]
    cases rest with
    | nil => simp
    | cons c r => simp [List.takeWhile_cons, List.dropWhile_cons, hr c rfl]
  | cons d t ih =>
    have hd := ht d (List.mem_cons_self d t)
    have := ih (fun x hx => ht x (List.mem_cons_of_mem d hx))
    simp [List.takeWhile_cons, List.dropWhile_cons, hd, this.1, this.2]

theorem numSafe_head (rest : List Nat) (h : numSafe rest = true) :
    ∀ c, rest.head? = some c → isDigitB c = false := by
  intro c hc
  cases rest with
  | nil => simp at hc
  | cons x r =>
    simp at hc
    subst hc
    simp [numSafe, isDigitB] at h
    simp [isDigitB]
    omega

theorem numSafe_float (rest : List Nat) (h : numSafe rest = true) :
    floatFollows rest = false := by
  cases rest with
  | nil => rfl
  | cons x r =>
    simp [numSafe, isDigitB] at h
    simp [floatFollows]
    omega

theorem parseUInt_natChars (n : Nat) (rest : List Nat)
    (hr : ∀ c, rest.head? = some c → isDigitB c = false) :
    parseUInt (natChars n ++ rest) = some (n, rest) := by
  rcases Nat.eq_zero_or_pos n with h | h
  · subst h; simp [natChars_zero, parseUInt]
  · obtain ⟨c, t, hct, h1, h2, ht⟩ := natChars_pos_head n h
    have hdig := takeWhile_digits_append t rest
      (fun d hd => by have := ht d hd; simp [isDigitB]; omega) hr
    rw [hct, List.cons_append, parseUInt, if_neg (by omega), if_pos (by omega),
      hdig.1, hdig.2]
    have : digitsVal (c :: t) = n := by
      rw [← digitsVal_natChars n, hct]
    rw [this]

theorem parseNumber_intChars (n : Int) (rest : List Nat) (hr : numSafe rest = true) :
    parseNumber (intChars n ++ rest) = some (n, rest) := by
  have hhead := numSafe_head rest hr
  have hfloat := numSafe_float rest hr
  by_cases hn : n < 0
  · rw [intChars, if_pos hn, List.cons_append, parseNumber, if_pos rfl,
      parseUInt_natChars n.natAbs rest hhead]
    show (if floatFollows rest = true then none else some (-(n.natAbs : Int), rest))
      = some (n, rest)
    rw [hfloat]
    simp only [Bool.false_eq_true, if_false, Option.some.injEq, Prod.mk.injEq]
    exact ⟨by omega, trivial⟩
  · rw [intChars, if_neg hn]
    rcases Nat.eq_zero_or_pos n.toNat with h0 | h0
    · have hn0 : n = 0 := by omega
      subst hn0
      simp [show (Int.toNat 0) = 0 from rfl, natChars_zero, parseNumber, parseUInt, hfloat]
    · obtain ⟨c, t, hct, h1, h2, ht⟩ := natChars_pos_head n.toNat h0
      have hu : parseUInt (natChars n.toNat ++ rest) = some (n.toNat, rest) :=
        parseUInt_natChars n.toNat rest hhead
      rw [hct] at hu ⊢
      rw [List.cons_append] at hu
      rw [List.cons_append, parseNumber, if_neg (by omega), hu]
      show (if floatFollows rest = true then none else some ((n.toNat : Int), rest))
        = some (n, rest)
      rw [hfloat]
      simp only [Bool.false_eq_true, if_false, Option.some.injEq, Prod.mk.injEq]
      exact ⟨by omega, trivial⟩

/-! String escaping and its parse, building up to the string round-trip. -/

theorem strOk_head (c : Nat) (cs : List Nat) (h : strOk (c :: cs) = true) : c < 1114112 := by
  cases cs <;> simp [strOk] at h <;> omega

theorem strOk_tail (c : Nat) (cs : List Nat) (h : strOk (c :: cs) = true) : strOk cs = true := by
  cases cs with
  | nil => rfl
  | cons c2 cs2 => simp [strOk] at h; simp [h]

theorem strOk_pair (c c2 : Nat) (cs2 : List Nat) (h : strOk (c :: c2 :: cs2) = true) :
    (isHiSurr c && isLoSurr c2) = false := by
  simp [strOk] at h
  rcases h with ⟨⟨-, h2⟩, -⟩
  rcases h2 with h2 | h2 <;> simp [h2]

theorem escapeChar_quote : escapeChar 34 = [92, 34] := rfl

theorem escapeChar_backslash : escapeChar 92 = [92, 92] := rfl

theorem escapeChar_print (c : Nat) (h : 32 ≤ c ∧ c ≤ 126) (h34 : c ≠ 34) (h92 : c ≠ 92) :
    escapeChar c = [c] := by
  rw [escapeChar]
  split_ifs <;> first | rfl | (exfalso; omega)

theorem escapeChar_u (c : Nat) (hlt : c < 65536) (hpr : ¬(32 ≤ c ∧ c ≤ 126))
    (h8 : c ≠ 8) (h12 : c ≠ 12) (h10 : c ≠ 10) (h13 : c ≠ 13) (h9 : c ≠ 9) :
    escapeChar c = escapeU c := by
  rw [escapeChar]
  split_ifs <;> first | rfl | (exfalso; exact hpr (by omega))

theorem escapeChar_astral (c : Nat) (h : 65536 ≤ c) :
    escapeChar c = escapeU (55296 + (c - 65536) / 1024) ++ escapeU (56320 + (c - 65536) % 1024) := by
  rw [escapeChar]
  split_ifs <;> first | rfl | (exfalso; omega)

theorem escapeChar_length_pos (c : Nat) : 0 < (escapeChar c).length := by
  rw [escapeChar]
  split_ifs <;> simp [escapeU, hex4]

theorem escString_cons (c : Nat) (cs : List Nat) :
    escString (c :: cs) = escapeChar c ++ escString cs := rfl

theorem escString_len (s : List Nat) : s.length ≤ (escString s).length := by
  induction s with
  | nil => simp [escString]
  | cons c cs ih =>
    rw [escString_cons]
    simp only [List.length_append, List.length_cons]
    have := escapeChar_length_pos c
    omega

theorem parseStr_close (f : Nat) (rest : List Nat) :
    parseStrAux (f + 1) (34 :: rest) = some ([], rest) := rfl

theorem parseStr_shortcut (f x v : Nat) (tail : List Nat)
    (hx : (x, v) ∈ ([(34, 34), (92, 92), (98, 8), (102, 12), (110, 10), (114, 13), (116, 9)]
      : List (Nat × Nat))) :
    parseStrAux (f + 1) (92 :: x :: tail) = (parseStrAux f tail).map (fun p => (v :: p.1, p.2)) := by
  fin_cases hx <;> rfl

theorem parseStr_literal (f c : Nat) (tail : List Nat)
    (h1 : 32 ≤ c) (h34 : c ≠ 34) (h92 : c ≠ 92) :
    parseStrAux (f + 1) (c :: tail) = (parseStrAux f tail).map (fun p => (c :: p.1, p.2)) := by
  simp only [parseStrAux]
  rw [if_neg h34, if_neg h92, if_neg (by omega)]

theorem parseStr_u_open (f u : Nat) (tail : List Nat) (hu : u < 65536) :
    parseStrAux (f + 1) (92 :: 117 :: (hex4 u ++ tail)) =
      (if 55296 ≤ u ∧ u ≤ 56319 then
        if tail.take 2 = [92, 117] then
          match parseU4 (tail.drop 2) with
          | none => none
          | some (u2, r5) =>
            if 56320 ≤ u2 ∧ u2 ≤ 57343 then
              (parseStrAux f r5).map
                (fun p => ((65536 + (u - 55296) * 1024 + (u2 - 56320)) :: p.1, p.2))
            else (parseStrAux f tail).map (fun p => (u :: p.1, p.2))
        else (parseStrAux f tail).map (fun p => (u :: p.1, p.2))
      else (parseStrAux f tail).map (fun p => (u :: p.1, p.2))) := by
  have h0 : parseStrAux (f + 1) (92 :: 117 :: (hex4 u ++ tail)) =
      match parseU4 (hex4 u ++ tail) with
      | none => none
      | some (u, r3) =>
        if 55296 ≤ u ∧ u ≤ 56319 then
          if r3.take 2 = [92, 117] then
            match parseU4 (r3.drop 2) with
            | none => none
            | some (u2, r5) =>
              if 56320 ≤ u2 ∧ u2 ≤ 57343 then
                (parseStrAux f r5).map
                  (fun p => ((65536 + (u - 55296) * 1024 + (u2 - 56320)) :: p.1, p.2))
              else (parseStrAux f r3).map (fun p => (u :: p.1, p.2))
          else (parseStrAux f r3).map (fun p => (u :: p.1, p.2))
        else (parseStrAux f r3).map (fun p => (u :: p.1, p.2)) := rfl
  rw [h0, parseU4_hex4 u tail hu]

theorem parseStr_u (f u : Nat) (tail : List Nat) (hu : u < 65536) (hns : isHiSurr u = false) :
    parseStrAux (f + 1) (92 :: 117 :: (hex4 u ++ tail))
      = (parseStrAux f tail).map (fun p => (u :: p.1, p.2)) := by
  rw [parseStr_u_open f u tail hu]
  simp [isHiSurr] at hns
  rw [if_neg (by omega)]

theorem parseStr_u_hi_lone (f u : Nat) (tail : List Nat) (hu : isHiSurr u = true)
    (h2 : tail.take 2 ≠ [92, 117]) :
    parseStrAux (f + 1) (92 :: 117 :: (hex4 u ++ tail))
      = (parseStrAux f tail).map (fun p => (u :: p.1, p.2)) := by
  simp [isHiSurr] at hu
  rw [parseStr_u_open f u tail (by omega), if_pos (by omega), if_neg h2]

theorem parseStr_u_hi_u (f u u2 : Nat) (tail : List Nat) (hu : isHiSurr u = true)
    (hu2 : u2 < 65536) (hlo : isLoSurr u2 = false) :
    parseStrAux (f + 1) (92 :: 117 :: (hex4 u ++ (92 :: 117 :: (hex4 u2 ++ tail))))
      = (parseStrAux f (92 :: 117 :: (hex4 u2 ++ tail))).map (fun p => (u :: p.1, p.2)) := by
  simp [isHiSurr] at hu
  simp [isLoSurr] at hlo
  rw [parseStr_u_open f u _ (by omega), if_pos (by omega)]
  rw [if_pos (by simp)]
  rw [show (92 :: 117 :: (hex4 u2 ++ tail) : List Nat).drop 2 = hex4 u2 ++ tail from rfl,
    parseU4_hex4 u2 tail hu2]
  dsimp only
  rw [if_neg (by omega)]

theorem parseStr_u_pair (f u u2 : Nat) (tail : List Nat)
    (hu : isHiSurr u = true) (hlo : isLoSurr u2 = true) :
    parseStrAux (f + 1) (92 :: 117 :: (hex4 u ++ (92 :: 117 :: (hex4 u2 ++ tail))))
      = (parseStrAux f tail).map
          (fun p => ((65536 + (u - 55296) * 1024 + (u2 - 56320)) :: p.1, p.2)) := by
  simp [isHiSurr] at hu
  simp [isLoSurr] at hlo
  rw [parseStr_u_open f u _ (by omega), if_pos (by omega)]
  rw [if_pos (by simp)]
  rw [show (92 :: 117 :: (hex4 u2 ++ tail) : List Nat).drop 2 = hex4 u2 ++ tail from rfl,
    parseU4_hex4 u2 tail (by omega)]
  dsimp only
  rw [if_pos (by omega)]

theorem escHead (c2 : Nat) (h : c2 < 1114112) :
    (∀ X : List Nat, ((escapeChar c2 ++ X).take 2 ≠ [92, 117]))
    ∨ (∃ u2 t2, escapeChar c2 = escapeU u2 ++ t2 ∧ u2 < 65536
        ∧ (isLoSurr u2 = true → isLoSurr c2 = true)) := by
  by_cases h34 : c2 = 34
  · subst h34; left; intro X; rw [escapeChar_quote]; simp
  by_cases h92 : c2 = 92
  · subst h92; left; intro X; rw [escapeChar_backslash]; simp
  by_cases h8 : c2 = 8
  · subst h8; left; intro X; simp [show escapeChar 8 = [92, 98] from rfl]
  by_cases h12 : c2 = 12
  · subst h12; left; intro X; simp [show escapeChar 12 = [92, 102] from rfl]
  by_cases h10 : c2 = 10
  · subst h10; left; intro X; simp [show escapeChar 10 = [92, 110] from rfl]
  by_cases h13 : c2 = 13
  · subst h13; left; intro X; simp [show escapeChar 13 = [92, 114] from rfl]
  by_cases h9 : c2 = 9
  · subst h9; left; intro X; simp [show escapeChar 9 = [92, 116] from rfl]
  by_cases hpr : 32 ≤ c2 ∧ c2 ≤ 126
  · left
    intro X
    rw [escapeChar_print c2 hpr h34 h92]
    simp only [List.cons_append, List.nil_append, List.take_succ_cons, ne_eq,
      List.cons.injEq, not_and]
    intro hc
    exact absurd hc h92
  by_cases hlt : c2 < 65536
  · right
    exact ⟨c2, [], by rw [escapeChar_u c2 hlt hpr h8 h12 h10 h13 h9]; simp, hlt, fun hx => hx⟩
  · right
    refine ⟨55296 + (c2 - 65536) / 1024, escapeU (56320 + (c2 - 65536) % 1024), ?_, by omega, ?_⟩
    · rw [escapeChar_astral c2 (by omega)]
    · intro hbad
      exfalso
      simp [isLoSurr] at hbad
      omega

theorem parseStr_escString (s : List Nat) :
    ∀ f rest, strOk s = true → s.length + 1 ≤ f →
      parseStrAux f (escString s ++ 34 :: rest) = some (s, rest) := by
  induction s with
  | nil =>
    intro f rest _ hf
    obtain ⟨f2, rfl⟩ : ∃ f2, f = f2 + 1 := ⟨f - 1, by omega⟩
    rw [show escString [] ++ 34 :: rest = 34 :: rest from rfl, parseStr_close]
  | cons c cs ih =>
    intro f rest hs hf
    obtain ⟨f2, rfl⟩ : ∃ f2, f = f2 + 1 := ⟨f - 1, by omega⟩
    have hf2 : cs.length + 1 ≤ f2 := by simp only [List.length_cons] at hf; omega
    have hcs : strOk cs = true := strOk_tail c cs hs
    have hc : c < 1114112 := strOk_head c cs hs
    have IH := ih f2 rest hcs hf2
    rw [escString_cons, List.append_assoc]
    by_cases h34 : c = 34
    · subst h34
      rw [escapeChar_quote, show ([92, 34] : List Nat) ++ (escString cs ++ 34 :: rest)
          = 92 :: 34 :: (escString cs ++ 34 :: rest) from rfl,
        parseStr_shortcut f2 34 34 _ (by decide), IH]
      rfl
    by_cases h92 : c = 92
    · subst h92
      rw [escapeChar_backslash, show ([92, 92] : List Nat) ++ (escString cs ++ 34 :: rest)
          = 92 :: 92 :: (escString cs ++ 34 :: rest) from rfl,
        parseStr_shortcut f2 92 92 _ (by decide), IH]
      rfl
    by_cases h8 : c = 8
    · subst h8
      rw [show escapeChar 8 = [92, 98] from rfl, show ([92, 98] : List Nat) ++ (escString cs ++ 34 :: rest)
          = 92 :: 98 :: (escString cs ++ 34 :: rest) from rfl,
        parseStr_shortcut f2 98 8 _ (by decide), IH]
      rfl
    by_cases h12 : c = 12
    · subst h12
      rw [show escapeChar 12 = [92, 102] from rfl, show ([92, 102] : List Nat) ++ (escString cs ++ 34 :: rest)
          = 92 :: 102 :: (escString cs ++ 34 :: rest) from rfl,
        parseStr_shortcut f2 102 12 _ (by decide), IH]
      rfl
    by_cases h10 : c = 10
    · subst h10
      rw [show escapeChar 10 = [92, 110] from rfl, show ([92, 110] : List Nat) ++ (escString cs ++ 34 :: rest)
          = 92 :: 110 :: (escString cs ++ 34 :: rest) from rfl,
        parseStr_shortcut f2 110 10 _ (by decide), IH]
      rfl
    by_cases h13 : c = 13
    · subst h13
      rw [show escapeChar 13 = [92, 114] from rfl, show ([92, 114] : List Nat) ++ (escString cs ++ 34 :: rest)
          = 92 :: 114 :: (escString cs ++ 34 :: rest) from rfl,
        parseStr_shortcut f2 114 13 _ (by decide), IH]
      rfl
    by_cases h9 : c = 9
    · subst h9
      rw [show escapeChar 9 = [92, 116] from rfl, show ([92, 116] : List Nat) ++ (escString cs ++ 34 :: rest)
          = 92 :: 116 :: (escString cs ++ 34 :: rest) from rfl,
        parseStr_shortcut f2 116 9 _ (by decide), IH]
      rfl
    by_cases hpr : 32 ≤ c ∧ c ≤ 126
    · rw [escapeChar_print c hpr h34 h92, show ([c] : List Nat) ++ (escString cs ++ 34 :: rest)
          = c :: (escString cs ++ 34 :: rest) from rfl,
        parseStr_literal f2 c _ hpr.1 h34 h92, IH]
      rfl
    by_cases hlt : c < 65536
    · rw [escapeChar_u c hlt hpr h8 h12 h10 h13 h9,
        show escapeU c ++ (escString cs ++ 34 :: rest)
          = 92 :: 117 :: (hex4 c ++ (escString cs ++ 34 :: rest)) from by simp [escapeU]]
      by_cases hhi : isHiSurr c = true
      · cases cs with
        | nil =>
          rw [parseStr_u_hi_lone f2 c _ hhi (by simp [escString]), IH]
          rfl
        | cons c2 cs2 =>
          have hc2 : c2 < 1114112 := strOk_head c2 cs2 hcs
          have hpairOk := strOk_pair c c2 cs2 hs
          have hlo2 : isLoSurr c2 = false := by
            cases hxx : isLoSurr c2 with
            | false => rfl
            | true => rw [hhi, hxx] at hpairOk; simp at hpairOk
          have hsplit : escString (c2 :: cs2) ++ 34 :: rest
              = escapeChar c2 ++ (escString cs2 ++ 34 :: rest) := by
            rw [escString_cons, List.append_assoc]
          rcases escHead c2 hc2 with hA | ⟨u2, t2, heq, hu2, himp⟩
          · rw [parseStr_u_hi_lone f2 c _ hhi (by rw [hsplit]; exact hA _), IH]
            rfl
          · have hlou2 : isLoSurr u2 = false := by
              cases hxx : isLoSurr u2 with
              | false => rfl
              | true => rw [himp hxx] at hlo2; simp at hlo2
            have hT : escString (c2 :: cs2) ++ 34 :: rest
                = 92 :: 117 :: (hex4 u2 ++ (t2 ++ (escString cs2 ++ 34 :: rest))) := by
              rw [hsplit, heq]
              simp [escapeU]
            rw [hT, parseStr_u_hi_u f2 c u2 _ hhi hu2 hlou2, ← hT, IH]
            rfl
      · have hhi2 : isHiSurr c = false := by simpa using hhi
        rw [parseStr_u f2 c _ hlt hhi2, IH]
        rfl
    · rw [escapeChar_astral c (by omega),
        show (escapeU (55296 + (c - 65536) / 1024) ++ escapeU (56320 + (c - 65536) % 1024))
            ++ (escString cs ++ 34 :: rest)
          = 92 :: 117 :: (hex4 (55296 + (c - 65536) / 1024)
            ++ (92 :: 117 :: (hex4 (56320 + (c - 65536) % 1024) ++ (escString cs ++ 34 :: rest))))
          from by simp [escapeU]]
      rw [parseStr_u_pair f2 _ _ _ (by simp [isHiSurr]; omega) (by simp [isLoSurr]; omega), IH]
      have harith : 65536 + (55296 + (c - 65536) / 1024 - 55296) * 1024
          + (56320 + (c - 65536) % 1024 - 56320) = c := by omega
      simp [harith]
      omega

/-! Facts about the printer output needed to drive the parser through it. -/

theorem intChars_head (n : Int) :
    ∃ c t, intChars n = c :: t ∧ (c = 45 ∨ (48 ≤ c ∧ c ≤ 57)) := by
  by_cases hn : n < 0
  · exact ⟨45, natChars n.natAbs, by rw [intChars, if_pos hn], Or.inl rfl⟩
  · rw [intChars, if_neg hn]
    rcases Nat.eq_zero_or_pos n.toNat with h0 | h0
    · rw [h0, natChars_zero]
      exact ⟨48, [], rfl, Or.inr (by omega)⟩
    · obtain ⟨c, t, hct, h1, h2, -⟩ := natChars_pos_head n.toNat h0
      exact ⟨c, t, hct, Or.inr (by omega)⟩

theorem dumps_head (v : Json) :
    ∃ c t, dumps v = c :: t
      ∧ isWsB c = false ∧ c ≠ 93 ∧ c ≠ 125 ∧ c ≠ 44 := by
  cases v with
  | null => exact ⟨110, _, rfl, by decide⟩
  | bool b => cases b with
    | true => exact ⟨116, _, rfl, by decide⟩
    | false => exact ⟨102, _, rfl, by decide⟩
  | num n =>
    obtain ⟨c, t, hct, hc⟩ := intChars_head n
    refine ⟨c, t, by rw [show dumps (.num n) = intChars n from rfl, hct], ?_, ?_, ?_, ?_⟩
      <;> rcases hc with h | h <;> simp [isWsB] <;> omega
  | str s => exact ⟨34, _, rfl, by decide⟩
  | arr l => cases l with
    | nil => exact ⟨91, _, rfl, by decide⟩
    | cons v vs => exact ⟨91, _, rfl, by decide⟩
  | obj l => cases l with
    | nil => exact ⟨123, _, rfl, by decide⟩
    | cons p ps => exact ⟨123, _, rfl, by decide⟩

theorem skipWs_dumps (v : Json) (rest : List Nat) :
    skipWs (dumps v ++ rest) = dumps v ++ rest := by
  obtain ⟨c, t, hct, hws, -, -, -⟩ := dumps_head v
  rw [hct, List.cons_append, skipWs_of_head _ _ hws]

theorem numSafe_sep (c : Nat) (t : List Nat)
    (h : isDigitB c = false ∧ c ≠ 46 ∧ c ≠ 101 ∧ c ≠ 69) : numSafe (c :: t) = true := by
  simp [numSafe, h.1, h.2.1, h.2.2.1, h.2.2.2]

theorem numSafe_dumpsArrTail (vs : List Json) (rest : List Nat) :
    numSafe (dumpsArrTail vs ++ rest) = true := by
  cases vs with
  | nil => exact numSafe_sep 93 _ (by decide)
  | cons v vs =>
    rw [show dumpsArrTail (v :: vs) = 44 :: 32 :: dumps v ++ dumpsArrTail vs from rfl]
    exact numSafe_sep 44 _ (by decide)

theorem numSafe_dumpsObjTail (ps : List (List Nat × Json)) (rest : List Nat) :
    numSafe (dumpsObjTail ps ++ rest) = true := by
  cases ps with
  | nil => exact numSafe_sep 125 _ (by decide)
  | cons p ps =>
    rw [show dumpsObjTail (p :: ps) = 44 :: 32 :: dumpsMember p ++ dumpsObjTail ps from rfl]
    exact numSafe_sep 44 _ (by decide)

theorem dictInsert_new (acc : List (List Nat × Json)) (k : List Nat) (v : Json)
    (h : acc.any (fun p => p.1 == k) = false) : dictInsert acc k v = acc ++ [(k, v)] := by
  rw [dictInsert, if_neg (by simp [h])]

theorem dictOfPairs_aux (l : List (List Nat × Json)) :
    ∀ acc, (∀ p ∈ l, ∀ q ∈ acc, (q.1 == p.1) = false) → keysNodup l = true →
      l.foldl (fun a p => dictInsert a p.1 p.2) acc = acc ++ l := by
  induction l with
  | nil => intro acc _ _; simp
  | cons p l ih =>
    intro acc hacc hnd
    obtain ⟨k, v⟩ := p
    rw [keysNodup] at hnd
    simp only [Bool.and_eq_true, Bool.not_eq_true'] at hnd
    rw [List.foldl_cons]
    have hnew : acc.any (fun q => q.1 == k) = false := by
      rw [List.any_eq_false]
      intro q hq
      simpa using hacc (k, v) (List.mem_cons_self _ _) q hq
    rw [dictInsert_new acc k v hnew]
    rw [ih (acc ++ [(k, v)]) ?_ hnd.2]
    · simp
    · intro p2 hp2 q hq
      rcases List.mem_append.mp hq with hq | hq
      · exact hacc p2 (List.mem_cons_of_mem _ hp2) q hq
      · simp only [List.mem_singleton] at hq
        subst hq
        have h2 := List.any_eq_false.mp hnd.1 p2 hp2
        simp only [Bool.not_eq_true, beq_eq_false_iff_ne, ne_eq] at h2
        simp only [beq_eq_false_iff_ne, ne_eq]
        intro hk
        exact h2 hk.symm

theorem dictOfPairs_nodup (l : List (List Nat × Json)) (h : keysNodup l = true) :
    dictOfPairs l = l := by
  rw [dictOfPairs, dictOfPairs_aux l [] (by simp) h]
  simp

theorem fsize_pos (v : Json) : 1 ≤ fsize v := by
  cases v with
  | null => simp [fsize]
  | bool b => simp [fsize]
  | num n => simp [fsize]
  | str s => simp [fsize]
  | arr l => cases l <;> simp [fsize]
  | obj l =>
    cases l with
    | nil => simp [fsize]
    | cons p ps => obtain ⟨k, v⟩ := p; simp [fsize]

theorem lsize_pos (vs : List Json) : 1 ≤ lsize vs := by
  cases vs <;> simp [lsize]

theorem psize_pos (ps : List (List Nat × Json)) : 1 ≤ psize ps := by
  cases ps with
  | nil => simp [psize]
  | cons p ps => obtain ⟨k, v⟩ := p; simp [psize]

mutual
theorem fsize_le : ∀ v : Json, fsize v ≤ (dumps v).length + 1
  | .null => by simp only [fsize, dumps]; omega
  | .bool b => by cases b <;> (simp only [fsize, dumps]; omega)
  | .num n => by simp only [fsize, dumps]; omega
  | .str s => by simp only [fsize, dumps]; omega
  | .arr [] => by simp only [fsize, dumps]; omega
  | .arr (v :: vs) => by
    have h1 := fsize_le v
    have h2 := lsize_le vs
    simp only [fsize, dumps, List.length_cons, List.length_append]
    omega
  | .obj [] => by simp only [fsize, dumps]; omega
  | .obj ((k, v) :: ps) => by
    have h1 := fsize_le v
    have h2 := psize_le ps
    simp only [fsize, dumps, dumpsMember, List.length_cons, List.length_append]
    omega

theorem lsize_le : ∀ vs : List Json, lsize vs ≤ (dumpsArrTail vs).length
  | [] => by decide
  | v :: vs => by
    have h1 := fsize_le v
    have h2 := lsize_le vs
    simp only [lsize, dumpsArrTail, List.length_cons, List.length_append]
    omega

theorem psize_le : ∀ ps : List (List Nat × Json), psize ps ≤ (dumpsObjTail ps).length
  | [] => by decide
  | (k, v) :: ps => by
    have h1 := fsize_le v
    have h2 := psize_le ps
    simp only [psize, dumpsObjTail, dumpsMember, List.length_cons, List.length_append]
    omega
end

/-! All printer output is ASCII (the ensure_ascii contract of json.dumps). -/

theorem hexDigit_ascii (k : Nat) (h : k < 16) : hexDigit k < 128 := by
  rw [hexDigit]
  split <;> omega

theorem hex4_ascii (u : Nat) : ∀ x ∈ hex4 u, x < 128 := by
  intro x hx
  simp [hex4] at hx
  rcases hx with h | h | h | h <;> subst h <;>
    exact hexDigit_ascii _ (Nat.mod_lt _ (by norm_num))

theorem escapeU_ascii (u : Nat) : ∀ x ∈ escapeU u, x < 128 := by
  intro x hx
  simp only [escapeU, List.mem_cons] at hx
  rcases hx with h | h | h
  · omega
  · omega
  · exact hex4_ascii u x h

theorem escapeChar_ascii (c : Nat) : ∀ x ∈ escapeChar c, x < 128 := by
  intro x hx
  rw [escapeChar] at hx
  split_ifs at hx with h1 h2 h3 h4 h5 h6 h7 h8 h9
  all_goals try simp at hx
  all_goals try omega
  · exact escapeU_ascii c x hx
  · rcases hx with h | h
    · exact escapeU_ascii _ x h
    · exact escapeU_ascii _ x h

theorem escString_ascii (s : List Nat) : ∀ x ∈ escString s, x < 128 := by
  induction s with
  | nil => simp [escString]
  | cons c cs ih =>
    intro x hx
    rw [escString_cons] at hx
    rcases List.mem_append.mp hx with h | h
    · exact escapeChar_ascii c x h
    · exact ih x h

theorem natChars_ascii (n : Nat) : ∀ x ∈ natChars n, x < 128 := by
  intro x hx
  have := natChars_digits n x hx
  omega

theorem intChars_ascii (n : Int) : ∀ x ∈ intChars n, x < 128 := by
  intro x hx
  rw [intChars] at hx
  split_ifs at hx
  · rcases List.mem_cons.mp hx with h | h
    · omega
    · exact natChars_ascii _ x h
  · exact natChars_ascii _ x hx

mutual
theorem dumps_ascii : ∀ v : Json, ∀ x ∈ dumps v, x < 128
  | .null => by decide
  | .bool b => by cases b <;> decide
  | .num n => intChars_ascii n
  | .str s => by
    intro x hx
    rcases List.mem_cons.mp hx with h | h
    · omega
    · rcases List.mem_append.mp h with h2 | h2
      · exact escString_ascii s x h2
      · rcases List.mem_singleton.mp h2 with rfl; omega
  | .arr [] => by decide
  | .arr (v :: vs) => by
    intro x hx
    rcases List.mem_cons.mp hx with h | h
    · omega
    · rcases List.mem_append.mp h with h2 | h2
      · exact dumps_ascii v x h2
      · exact dumpsArrTail_ascii vs x h2
  | .obj [] => by decide
  | .obj (p :: ps) => by
    intro x hx
    rcases List.mem_cons.mp hx with h | h
    · omega
    · rcases List.mem_append.mp h with h2 | h2
      · exact dumpsMember_ascii p x h2
      · exact dumpsObjTail_ascii ps x h2

theorem dumpsArrTail_ascii : ∀ vs : List Json, ∀ x ∈ dumpsArrTail vs, x < 128
  | [] => by decide
  | v :: vs => by
    intro x hx
    rcases List.mem_cons.mp hx with h | h
    · omega
    · rcases List.mem_cons.mp h with h2 | h2
      · omega
      · rcases List.mem_append.mp h2 with h3 | h3
        · exact dumps_ascii v x h3
        · exact dumpsArrTail_ascii vs x h3

theorem dumpsMember_ascii : ∀ p : List Nat × Json, ∀ x ∈ dumpsMember p, x < 128
  | (k, v) => by
    intro x hx
    rcases List.mem_cons.mp hx with h | h
    · omega
    · rcases List.mem_append.mp h with h2 | h2
      · exact escString_ascii k x h2
      · rcases List.mem_cons.mp h2 with h3 | h3
        · omega
        · rcases List.mem_cons.mp h3 with h4 | h4
          · omega
          · rcases List.mem_cons.mp h4 with h5 | h5
            · omega
            · exact dumps_ascii v x h5

theorem dumpsObjTail_ascii : ∀ ps : List (List Nat × Json), ∀ x ∈ dumpsObjTail ps, x < 128
  | [] => by decide
  | p :: ps => by
    intro x hx
    rcases List.mem_cons.mp hx with h | h
    · omega
    · rcases List.mem_cons.mp h with h2 | h2
      · omega
      · rcases List.mem_append.mp h2 with h3 | h3
        · exact dumpsMember_ascii p x h3
        · exact dumpsObjTail_ascii ps x h3
end

theorem utf8Encode_ascii (l : List Nat) (h : ∀ x ∈ l, x < 128) : utf8Encode l = some l := by
  induction l with
  | nil => rfl
  | cons c cs ih =>
    have h1 : utf8EncodeChar c = some [c] := by
      rw [utf8EncodeChar, if_pos (h c (List.mem_cons_self _ _))]
    have h2 : utf8Encode cs = some cs := ih (fun x hx => h x (List.mem_cons_of_mem _ hx))
    rw [utf8Encode, h1, h2]
    rfl

theorem utf8Head_ascii (c : Nat) (cs : List Nat) (hc : c < 128) :
    utf8Head (c :: cs) = some (c, cs) := by
  rw [utf8Head.eq_def]
  dsimp only
  rw [if_pos hc]

theorem utf8DecodeAux_ascii (l : List Nat) (h : ∀ x ∈ l, x < 128) :
    ∀ f, l.length ≤ f → utf8DecodeAux f l = some l := by
  induction l with
  | nil => intro f _; cases f <;> rfl
  | cons c cs ih =>
    intro f hf
    obtain ⟨f2, rfl⟩ : ∃ f2, f = f2 + 1 := ⟨f - 1, by simp at hf; omega⟩
    rw [utf8DecodeAux, utf8Head_ascii c cs (h c (List.mem_cons_self _ _))]
    dsimp only
    rw [ih (fun x hx => h x (List.mem_cons_of_mem _ hx)) f2 (by simp at hf; omega)]
    rfl

theorem utf8Decode_ascii (l : List Nat) (h : ∀ x ∈ l, x < 128) : utf8Decode l = some l :=
  utf8DecodeAux_ascii l h l.length (le_refl _)

/-! Step lemmas for parseVal and the tail parsers, one per dispatch branch. -/

theorem parseVal_null (f : Nat) (t : List Nat) :
    parseVal (f + 1) (110 :: 117 :: 108 :: 108 :: t) = some (.null, t) := rfl

theorem parseVal_true (f : Nat) (t : List Nat) :
    parseVal (f + 1) (116 :: 114 :: 117 :: 101 :: t) = some (.bool true, t) := rfl

theorem parseVal_false (f : Nat) (t : List Nat) :
    parseVal (f + 1) (102 :: 97 :: 108 :: 115 :: 101 :: t) = some (.bool false, t) := rfl

theorem parseVal_number (f c : Nat) (t : List Nat) (n : Int) (r2 : List Nat)
    (hc : c = 45 ∨ (48 ≤ c ∧ c ≤ 57)) (h : parseNumber (c :: t) = some (n, r2)) :
    parseVal (f + 1) (c :: t) = some (.num n, r2) := by
  have step : parseVal (f + 1) (c :: t)
      = match parseNumber (c :: t) with
        | some (n, r2) => some (.num n, r2)
        | none => none := by
    rcases hc with rfl | ⟨hc1, hc2⟩
    · rfl
    · interval_cases c <;> rfl
  rw [step, h]

theorem parseVal_quote (f : Nat) (r cs r2 : List Nat)
    (h : parseStrAux r.length r = some (cs, r2)) :
    parseVal (f + 1) (34 :: r) = some (.str cs, r2) := by
  rw [parseVal.eq_def]
  dsimp only
  rw [if_pos rfl, h]

theorem parseVal_arrNil (f : Nat) (r : List Nat) (h : (skipWs r).head? = some 93) :
    parseVal (f + 1) (91 :: r) = some (.arr [], (skipWs r).tail) := by
  rw [parseVal.eq_def]
  dsimp only
  rw [if_neg (by decide), if_neg (by decide), if_pos rfl, if_pos h]

theorem parseVal_arrCons (f : Nat) (r : List Nat) (v : Json) (vs : List Json) (r2 r3 : List Nat)
    (hne : ¬(skipWs r).head? = some 93)
    (h1 : parseVal f (skipWs r) = some (v, r2))
    (h2 : parseArrTail f r2 = some (vs, r3)) :
    parseVal (f + 1) (91 :: r) = some (.arr (v :: vs), r3) := by
  rw [parseVal.eq_def]
  dsimp only
  rw [if_neg (by decide), if_neg (by decide), if_pos rfl, if_neg hne, h1]
  dsimp only
  rw [h2]

theorem parseVal_objNil (f : Nat) (r : List Nat) (h : (skipWs r).head? = some 125) :
    parseVal (f + 1) (123 :: r) = some (.obj [], (skipWs r).tail) := by
  rw [parseVal.eq_def]
  dsimp only
  rw [if_neg (by decide), if_pos rfl, if_pos h]

theorem parseVal_objCons (f : Nat) (r : List Nat) (k : List Nat) (v : Json)
    (ps : List (List Nat × Json)) (r2 r4 r5 : List Nat)
    (hne : ¬(skipWs r).head? = some 125)
    (hq : (skipWs r).head? = some 34)
    (hk : parseStrAux (skipWs r).tail.length (skipWs r).tail = some (k, r2))
    (hcol : (skipWs r2).head? = some 58)
    (hv : parseVal f (skipWs (skipWs r2).tail) = some (v, r4))
    (ht : parseObjTail f r4 = some (ps, r5)) :
    parseVal (f + 1) (123 :: r) = some (.obj (dictOfPairs ((k, v) :: ps)), r5) := by
  rw [parseVal.eq_def]
  dsimp only
  rw [if_neg (by decide), if_pos rfl, if_neg hne, if_pos hq, hk]
  dsimp only
  rw [if_pos hcol, hv]
  dsimp only
  rw [ht]

theorem parseArrTail_close (f : Nat) (s : List Nat) (h : (skipWs s).head? = some 93) :
    parseArrTail (f + 1) s = some ([], (skipWs s).tail) := by
  rw [parseArrTail.eq_def]
  dsimp only
  rw [if_pos h]

theorem parseArrTail_cons (f : Nat) (s : List Nat) (v : Json) (vs : List Json) (r2 r3 : List Nat)
    (hne : ¬(skipWs s).head? = some 93)
    (hc : (skipWs s).head? = some 44)
    (h1 : parseVal f (skipWs (skipWs s).tail) = some (v, r2))
    (h2 : parseArrTail f r2 = some (vs, r3)) :
    parseArrTail (f + 1) s = some (v :: vs, r3) := by
  rw [parseArrTail.eq_def]
  dsimp only
  rw [if_neg hne, if_pos hc, h1]
  dsimp only
  rw [h2]

theorem parseObjTail_close (f : Nat) (s : List Nat) (h : (skipWs s).head? = some 125) :
    parseObjTail (f + 1) s = some ([], (skipWs s).tail) := by
  rw [parseObjTail.eq_def]
  dsimp only
  rw [if_pos h]

theorem parseObjTail_cons (f : Nat) (s : List Nat) (k : List Nat) (v : Json)
    (ps : List (List Nat × Json)) (r2 r4 r5 : List Nat)
    (hne : ¬(skipWs s).head? = some 125)
    (hc : (skipWs s).head? = some 44)
    (hq : (skipWs (skipWs s).tail).head? = some 34)
    (hk : parseStrAux (skipWs (skipWs s).tail).tail.length (skipWs (skipWs s).tail).tail
      = some (k, r2))
    (hcol : (skipWs r2).head? = some 58)
    (hv : parseVal f (skipWs (skipWs r2).tail) = some (v, r4))
    (ht : parseObjTail f r4 = some (ps, r5)) :
    parseObjTail (f + 1) s = some ((k, v) :: ps, r5) := by
  rw [parseObjTail.eq_def]
  dsimp only
  rw [if_neg hne, if_pos hc, if_pos hq, hk]
  dsimp only
  rw [if_pos hcol, hv]
  dsimp only
  rw [ht]

theorem skipWs_space (y : List Nat) : skipWs (32 :: y) = skipWs y := by
  simp [skipWs, List.dropWhile_cons, isWsB]

/-- The printer-parser round trip, by induction on parser fuel: fuel at least
the fsize of the value lets parseVal read back exactly the printed value,
leaving any number-safe continuation untouched; likewise for the printed
element and member tails. -/
theorem parse_dumps_master (f : Nat) :
    (∀ v rest, wfb v = true → fsize v ≤ f → numSafe rest = true →
      parseVal f (dumps v ++ rest) = some (v, rest))
    ∧ (∀ vs rest, wfbList vs = true → lsize vs ≤ f → numSafe rest = true →
      parseArrTail f (dumpsArrTail vs ++ rest) = some (vs, rest))
    ∧ (∀ ps rest, wfbFields ps = true → psize ps ≤ f → numSafe rest = true →
      parseObjTail f (dumpsObjTail ps ++ rest) = some (ps, rest)) := by
  induction f with
  | zero =>
    refine ⟨fun v _ _ hs _ => absurd hs (by have := fsize_pos v; omega),
            fun vs _ _ hs _ => absurd hs (by have := lsize_pos vs; omega),
            fun ps _ _ hs _ => absurd hs (by have := psize_pos ps; omega)⟩
  | succ f ih =>
    obtain ⟨ihV, ihA, ihO⟩ := ih
    refine ⟨?_, ?_, ?_⟩
    · intro v rest hwf hsz hns
      cases v with
      | null => exact parseVal_null f rest
      | bool b =>
        cases b with
        | true => exact parseVal_true f rest
        | false => exact parseVal_false f rest
      | num n =>
        obtain ⟨c, t, hct, hc⟩ := intChars_head n
        have hpn : parseNumber (intChars n ++ rest) = some (n, rest) :=
          parseNumber_intChars n rest hns
        rw [hct, List.cons_append] at hpn
        rw [show dumps (.num n) = intChars n from rfl, hct, List.cons_append]
        exact parseVal_number f c (t ++ rest) n rest hc hpn
      | str s =>
        have hstr : strOk s = true := hwf
        rw [show dumps (.str s) ++ rest = 34 :: (escString s ++ 34 :: rest) from by
          simp [dumps]]
        refine parseVal_quote f _ s rest (parseStr_escString s _ rest hstr ?_)
        have h1 := escString_len s
        simp only [List.length_append, List.length_cons]
        omega
      | arr l =>
        cases l with
        | nil =>
          rw [show dumps (.arr []) ++ rest = 91 :: 93 :: rest from rfl]
          have h93 : (skipWs (93 :: rest)).head? = some 93 := by
            rw [skipWs_of_head 93 rest (by decide)]
            rfl
          rw [parseVal_arrNil f _ h93, skipWs_of_head 93 rest (by decide)]
          rfl
        | cons v vs =>
          have hwf2 : wfb v = true ∧ wfbList vs = true := by
            have h : (wfb v && wfbList vs) = true := hwf
            simpa using h
          have hsz2 : fsize v ≤ f ∧ lsize vs ≤ f := by
            have h : 1 + max (fsize v) (lsize vs) ≤ f + 1 := hsz
            omega
          rw [show dumps (.arr (v :: vs)) ++ rest
              = 91 :: (dumps v ++ (dumpsArrTail vs ++ rest)) from by simp [dumps]]
          obtain ⟨c, t, hct, hws, h93, h125, h44⟩ := dumps_head v
          refine parseVal_arrCons f _ v vs (dumpsArrTail vs ++ rest) rest ?_ ?_ ?_
          · rw [skipWs_dumps v _, hct, List.cons_append]
            simp [h93]
          · rw [skipWs_dumps v _]
            exact ihV v _ hwf2.1 hsz2.1 (numSafe_dumpsArrTail vs rest)
          · exact ihA vs rest hwf2.2 hsz2.2 hns
      | obj l =>
        cases l with
        | nil =>
          rw [show dumps (.obj []) ++ rest = 123 :: 125 :: rest from rfl]
          have h125 : (skipWs (125 :: rest)).head? = some 125 := by
            rw [skipWs_of_head 125 rest (by decide)]
            rfl
          rw [parseVal_objNil f _ h125, skipWs_of_head 125 rest (by decide)]
          rfl
        | cons p ps =>
          obtain ⟨k, v⟩ := p
          have hwx : (keysNodup ((k, v) :: ps) && (strOk k && wfb v && wfbFields ps)) = true := hwf
          simp only [Bool.and_eq_true] at hwx
          have hsz2 : fsize v ≤ f ∧ psize ps ≤ f := by
            have h : 1 + max (fsize v) (psize ps) ≤ f + 1 := hsz
            omega
          rw [show dumps (.obj ((k, v) :: ps)) ++ rest
              = 123 :: (34 :: (escString k
                  ++ 34 :: (58 :: 32 :: (dumps v ++ (dumpsObjTail ps ++ rest))))) from by
            simp [dumps, dumpsMember]]
          have hkey := parseStr_escString k
            (escString k ++ 34 :: (58 :: 32 :: (dumps v ++ (dumpsObjTail ps ++ rest)))).length
            (58 :: 32 :: (dumps v ++ (dumpsObjTail ps ++ rest))) hwx.2.1.1 (by
              have h1 := escString_len k
              simp only [List.length_append, List.length_cons]
              omega)
          rw [show (Json.obj ((k, v) :: ps)) = .obj (dictOfPairs ((k, v) :: ps)) from by
            rw [dictOfPairs_nodup _ hwx.1]]
          refine parseVal_objCons f _ k v ps
            (58 :: 32 :: (dumps v ++ (dumpsObjTail ps ++ rest)))
            (dumpsObjTail ps ++ rest) rest ?_ ?_ ?_ ?_ ?_ ?_
          · rw [skipWs_of_head 34 _ (by decide)]
            simp
          · rw [skipWs_of_head 34 _ (by decide)]
            rfl
          · rw [skipWs_of_head 34 _ (by decide)]
            exact hkey
          · rw [skipWs_of_head 58 _ (by decide)]
            rfl
          · rw [skipWs_of_head 58 _ (by decide),
              show (58 :: 32 :: (dumps v ++ (dumpsObjTail ps ++ rest)) : List Nat).tail
                = 32 :: (dumps v ++ (dumpsObjTail ps ++ rest)) from rfl,
              skipWs_space, skipWs_dumps v _]
            exact ihV v _ hwx.2.1.2 hsz2.1 (numSafe_dumpsObjTail ps rest)
          · exact ihO ps rest hwx.2.2 hsz2.2 hns
    · intro vs rest hwf hsz hns
      cases vs with
      | nil =>
        rw [show dumpsArrTail [] ++ rest = 93 :: rest from rfl]
        have h93 : (skipWs (93 :: rest)).head? = some 93 := by
          rw [skipWs_of_head 93 rest (by decide)]
          rfl
        rw [parseArrTail_close f _ h93, skipWs_of_head 93 rest (by decide)]
        rfl
      | cons v vs =>
        have hwf2 : wfb v = true ∧ wfbList vs = true := by
          have h : (wfb v && wfbList vs) = true := hwf
          simpa using h
        have hsz2 : fsize v ≤ f ∧ lsize vs ≤ f := by
          have h : 1 + max (fsize v) (lsize vs) ≤ f + 1 := hsz
          omega
        rw [show dumpsArrTail (v :: vs) ++ rest
            = 44 :: 32 :: (dumps v ++ (dumpsArrTail vs ++ rest)) from by simp [dumpsArrTail]]
        refine parseArrTail_cons f _ v vs (dumpsArrTail vs ++ rest) rest ?_ ?_ ?_ ?_
        · rw [skipWs_of_head 44 _ (by decide)]
          simp
        · rw [skipWs_of_head 44 _ (by decide)]
          rfl
        · rw [skipWs_of_head 44 _ (by decide),
            show (44 :: 32 :: (dumps v ++ (dumpsArrTail vs ++ rest)) : List Nat).tail
              = 32 :: (dumps v ++ (dumpsArrTail vs ++ rest)) from rfl,
            skipWs_space, skipWs_dumps v _]
          exact ihV v _ hwf2.1 hsz2.1 (numSafe_dumpsArrTail vs rest)
        · exact ihA vs rest hwf2.2 hsz2.2 hns
    · intro ps rest hwf hsz hns
      cases ps with
      | nil =>
        rw [show dumpsObjTail [] ++ rest = 125 :: rest from rfl]
        have h125 : (skipWs (125 :: rest)).head? = some 125 := by
          rw [skipWs_of_head 125 rest (by decide)]
          rfl
        rw [parseObjTail_close f _ h125, skipWs_of_head 125 rest (by decide)]
        rfl
      | cons p ps =>
        obtain ⟨k, v⟩ := p
        have hwx : (strOk k && wfb v && wfbFields ps) = true := hwf
        simp only [Bool.and_eq_true] at hwx
        have hsz2 : fsize v ≤ f ∧ psize ps ≤ f := by
          have h : 1 + max (fsize v) (psize ps) ≤ f + 1 := hsz
          omega
        rw [show dumpsObjTail ((k, v) :: ps) ++ rest
            = 44 :: 32 :: (34 :: (escString k
                ++ 34 :: (58 :: 32 :: (dumps v ++ (dumpsObjTail ps ++ rest))))) from by
          simp [dumpsObjTail, dumpsMember]]
        have hkey := parseStr_escString k
          (escString k ++ 34 :: (58 :: 32 :: (dumps v ++ (dumpsObjTail ps ++ rest)))).length
          (58 :: 32 :: (dumps v ++ (dumpsObjTail ps ++ rest))) hwx.1.1 (by
            have h1 := escString_len k
            simp only [List.length_append, List.length_cons]
            omega)
        refine parseObjTail_cons f _ k v ps
          (58 :: 32 :: (dumps v ++ (dumpsObjTail ps ++ rest)))
          (dumpsObjTail ps ++ rest) rest ?_ ?_ ?_ ?_ ?_ ?_ ?_
        · rw [skipWs_of_head 44 _ (by decide)]
          simp
        · rw [skipWs_of_head 44 _ (by decide)]
          rfl
        · rw [skipWs_of_head 44 _ (by decide),
            show (44 :: 32 :: (34 :: (escString k
                ++ 34 :: (58 :: 32 :: (dumps v ++ (dumpsObjTail ps ++ rest))))) : List Nat).tail
              = 32 :: (34 :: (escString k
                ++ 34 :: (58 :: 32 :: (dumps v ++ (dumpsObjTail ps ++ rest))))) from rfl,
            skipWs_space, skipWs_of_head 34 _ (by decide)]
          rfl
        · rw [skipWs_of_head 44 _ (by decide),
            show (44 :: 32 :: (34 :: (escString k
                ++ 34 :: (58 :: 32 :: (dumps v ++ (dumpsObjTail ps ++ rest))))) : List Nat).tail
              = 32 :: (34 :: (escString k
                ++ 34 :: (58 :: 32 :: (dumps v ++ (dumpsObjTail ps ++ rest))))) from rfl,
            skipWs_space, skipWs_of_head 34 _ (by decide)]
          exact hkey
        · rw [skipWs_of_head 58 _ (by decide)]
          rfl
        · rw [skipWs_of_head 58 _ (by decide),
            show (58 :: 32 :: (dumps v ++ (dumpsObjTail ps ++ rest)) : List Nat).tail
              = 32 :: (dumps v ++ (dumpsObjTail ps ++ rest)) from rfl,
            skipWs_space, skipWs_dumps v _]
          exact ihV v _ hwx.1.2 hsz2.1 (numSafe_dumpsObjTail ps rest)
        · exact ihO ps rest hwx.2 hsz2.2 hns

/-! The full codec round trip: loads after dumps, then frames end to end. -/

theorem loads_dumps (v : Json) (hwf : wfb v = true) : loads (dumps v) = some v := by
  rw [loads]
  have h1 : skipWs (dumps v) = dumps v := by
    have h := skipWs_dumps v []
    simpa using h
  rw [h1]
  have hm := (parse_dumps_master ((dumps v).length + 1)).1 v [] hwf
    (by have := fsize_le v; omega) rfl
  rw [List.append_nil] at hm
  rw [hm]
  rfl

theorem unpack4_pack4 (n : Nat) (h : n < 4294967296) : unpack4 (pack4 n) = n := by
  rw [pack4, unpack4]
  omega

theorem pack4_append_take (n : Nat) (l : List Nat) : (pack4 n ++ l).take 4 = pack4 n := rfl

theorem pack4_append_drop (n : Nat) (l : List Nat) : (pack4 n ++ l).drop 4 = l := rfl

theorem readResult_frame (e : List Nat) (v : Json) (hL : e.length < 4294967296)
    (hdec : utf8Decode e = some e) (hload : loads e = some v) :
    readResult (pack4 e.length ++ e) = .msg v := by
  rw [readResult, if_neg (by simp [pack4]), if_neg (by simp [pack4])]
  rw [pack4_append_drop, pack4_append_take, unpack4_pack4 _ hL, List.take_length, hdec]
  dsimp only
  rw [hload]

theorem restOf_frame (e : List Nat) (hL : e.length < 4294967296) :
    restOf (pack4 e.length ++ e) = [] := by
  rw [restOf, if_neg (by simp [pack4]), pack4_append_take, unpack4_pack4 _ hL]
  rw [show 4 + e.length = e.length + 4 from by omega]
  simp [pack4]

/-! The dispatch loop, one iteration at a time. -/

theorem mainLoop_nil (env : Env) : mainLoop env [] = ([], 0) := by
  simp [mainLoop]

theorem mainLoop_skip (env : Env) (input : List Nat)
    (h : readResult input = .noMsg ∨ ∃ j, readResult input = .msg j ∧ falsy j = true) :
    mainLoop env input = mainLoop env (restOf input) := by
  cases input with
  | nil => rcases h with h | ⟨j, h, -⟩ <;> simp [readResult] at h
  | cons b t =>
    rw [mainLoop]
    rcases h with h | ⟨j, h, hf⟩ <;> rw [h]
    simp [hf]

theorem mainLoop_resp (env : Env) (input : List Nat) (j resp : Json)
    (h : readResult input = .msg j) (hf : falsy j = false) (hd : dispatch env j = some resp) :
    mainLoop env input =
      (send_message resp :: (mainLoop env (restOf input)).1, (mainLoop env (restOf input)).2) := by
  cases input with
  | nil => simp [readResult] at h
  | cons b t => rw [mainLoop, h]; simp [hf, hd]

theorem mainLoop_fatal (env : Env) (input : List Nat) (j : Json)
    (h : readResult input = .msg j) (hf : falsy j = false) (hd : dispatch env j = none) :
    mainLoop env input = ([], 1) := by
  cases input with
  | nil => simp [readResult] at h
  | cons b t => rw [mainLoop, h]; simp [hf, hd]

theorem send_message_frame (v : Json) (h : (dumps v).length < 4294967296) :
    send_message v = pack4 (dumps v).length ++ dumps v := by
  rw [send_message, utf8Encode_ascii _ (dumps_ascii v)]
  dsimp only
  rw [if_pos h]

theorem send_message_overflow (v : Json) (h : 4294967296 ≤ (dumps v).length) :
    send_message v = [] := by
  rw [send_message, utf8Encode_ascii _ (dumps_ascii v)]
  dsimp only
  rw [if_neg (by omega)]

/-! Claim theorems. envA is a concrete environment for closed instances. -/

def envA : Env := ⟨.absent, .connError, .connError⟩

/-- C1 (amended): encoding a value with send_message and decoding the frame
with read_message reproduces the value, for every JSON value in the model
(integers for numbers) whose strings never contain a high surrogate
immediately followed by a low surrogate, whose objects have distinct keys
(automatic for Python dicts), and whose serialization is shorter than 2^32
bytes. As stated over every serializable value the claim fails: dumps
escapes an adjacent surrogate pair character-by-character and loads folds
the two escapes back into one astral code point, so such strings come back
changed (see the counterexample). -/
theorem C1_roundtrip (v : Json) (hwf : wfb v = true)
    (hlen : (dumps v).length < 4294967296) :
    read_message (send_message v) = (.msg v, []) := by
  have hasc := dumps_ascii v
  rw [send_message, utf8Encode_ascii _ hasc]
  dsimp only
  rw [if_pos hlen, read_message,
    readResult_frame _ v hlen (utf8Decode_ascii _ hasc) (loads_dumps v hwf),
    restOf_frame _ hlen]

/-- C1 counterexample: the two-character string holding a lone high
surrogate followed by a lone low surrogate (both JSON-serializable in
Python) decodes back as the single astral code point 0x10000, not as the
original value, refuting the round trip as universally stated. -/
theorem C1_roundtrip_counterexample :
    read_message (send_message (.str [55296, 56320])) = (.msg (.str [65536]), [])
    ∧ Json.str [65536] ≠ Json.str [55296, 56320] :=
  ⟨rfl, by simp⟩

/-- C1 witness: the round trip at a concrete well-formed object. -/
theorem C1_roundtrip_witness :
    wfb (Json.obj [(pychars "type", .str (pychars "ping")), (pychars "data", .num (-3))]) = true
    ∧ read_message (send_message
        (Json.obj [(pychars "type", .str (pychars "ping")), (pychars "data", .num (-3))]))
      = (.msg (Json.obj [(pychars "type", .str (pychars "ping")), (pychars "data", .num (-3))]), []) :=
  ⟨rfl, C1_roundtrip _ rfl (by decide)⟩

/-- C5: a zero-byte read of the length prefix (end of the input stream) is
sys.exit(0); the SystemExit passes through the except-Exception handlers, so
the process terminates with exit code 0 and the loop emits no further
frames. -/
theorem C5_eof (env : Env) : readResult [] = .exit 0 ∧ mainLoop env [] = ([], 0) :=
  ⟨rfl, mainLoop_nil env⟩

/-- C8 (amended): for every value whose UTF-8 JSON serialization is shorter
than 2^32 bytes, send_message writes exactly one frame: the 4-byte
little-endian (native order on the supported hosts) length of the payload,
then exactly the payload bytes, with no delimiters or checksums (the
equality is exact). The flush after the write is timing behavior with no
byte-level content and is not part of the model. Beyond 2^32 - 1 bytes
struct.pack raises before anything is written and the frame is not emitted,
so the claim does not hold for every value (see the counterexample). -/
theorem C8_send_message (v : Json) (h : (dumps v).length < 4294967296) :
    utf8Encode (dumps v) = some (dumps v)
    ∧ send_message v = pack4 (dumps v).length ++ dumps v
    ∧ unpack4 (pack4 (dumps v).length) = (dumps v).length :=
  ⟨utf8Encode_ascii _ (dumps_ascii v), send_message_frame v h, unpack4_pack4 _ h⟩

/-- C8 counterexample: a string of 2^32 ASCII characters serializes to
2^32 + 2 bytes; struct.pack refuses the length, the exception is caught, and
send_message writes nothing instead of the claimed frame. -/
theorem C8_send_message_counterexample :
    send_message (.str (List.replicate 4294967296 97)) = []
    ∧ pack4 (dumps (.str (List.replicate 4294967296 97))).length
        ++ dumps (.str (List.replicate 4294967296 97)) ≠ [] := by
  have hesc : escString (List.replicate 4294967296 97) = List.replicate 4294967296 97 := by
    generalize 4294967296 = n
    induction n with
    | zero => rfl
    | succ n ih =>
      rw [List.replicate_succ, escString_cons,
        escapeChar_print 97 (by omega) (by omega) (by omega), ih]
      rfl
  have hlen : (dumps (.str (List.replicate 4294967296 97))).length = 4294967298 := by
    rw [show dumps (.str (List.replicate 4294967296 97))
        = 34 :: escString (List.replicate 4294967296 97) ++ [34] from rfl, hesc,
      List.length_append, List.length_cons, List.length_replicate]
    rfl
  constructor
  · exact send_message_overflow _ (by omega)
  · intro hx
    rw [pack4] at hx
    exact List.cons_ne_nil _ _ hx

/-- C8 witness: the exact frame for a concrete object. -/
theorem C8_send_message_witness :
    send_message (Json.obj [(pychars "type", .str (pychars "pong"))])
      = pack4 (dumps (Json.obj [(pychars "type", .str (pychars "pong"))])).length
        ++ dumps (Json.obj [(pychars "type", .str (pychars "pong"))])
    ∧ send_message (Json.obj [(pychars "type", .str (pychars "pong"))])
      = [16, 0, 0, 0] ++ pychars "\x7b\"type\": \"pong\"\x7d" :=
  ⟨(C8_send_message _ (by decide)).2.1, by decide⟩

/-- responseOk unfolded: the ok statuses are exactly those outside the
400-599 range that raise_for_status raises for. -/
theorem responseOk_iff (st : Nat) : responseOk st = true ↔ st < 400 ∨ 600 ≤ st := by
  constructor
  · intro hok
    by_contra hc
    push_neg at hc
    rw [responseOk, if_pos (by omega)] at hok
    exact Bool.false_ne_true hok
  · intro hc
    rw [responseOk, if_neg (by omega)]

/-- responseOk is false exactly on the error range 400-599. -/
theorem responseOk_false (st : Nat) (h1 : 400 ≤ st) (h2 : st < 600) :
    responseOk st = false := by
  rw [responseOk, if_pos ⟨h1, h2⟩]

/-- C2 (amended): forward_to_vscode maps a response whose status is ok in
the requests sense -- any status outside the error range 400-599, which
admits 3xx and 600-999 statuses, not only 2xx -- and a falsy body to
success with data null; an ok status with a body parsing as JSON to success
with the parsed data; an ok status with a body that response.json() rejects
to the generic failure dict carrying the exception text; and a status in
the range 400-599 to the failure dict with the exact text
"VS Code returned status <code>". As literally stated (success iff 2xx, and
data for every body) the claim fails: a 304 or a 600 response is reported
as success, and an ok status with a non-JSON body is reported as failure
(see the counterexample). -/
theorem C2_forward (status : Nat) :
    (responseOk status = true ↔ status < 400 ∨ 600 ≤ status)
    ∧ (responseOk status = true →
      forward_to_vscode (.response status .empty)
        = [(pychars "success", .bool true), (pychars "status", .num status),
           (pychars "data", .null)])
    ∧ (responseOk status = true → ∀ j,
      forward_to_vscode (.response status (.jsonBody j))
        = [(pychars "success", .bool true), (pychars "status", .num status),
           (pychars "data", j)])
    ∧ (responseOk status = true → ∀ e,
      forward_to_vscode (.response status (.invalid e))
        = [(pychars "success", .bool false), (pychars "error", .str e)])
    ∧ (400 ≤ status → status < 600 → ∀ body,
      forward_to_vscode (.response status body)
        = [(pychars "success", .bool false),
           (pychars "error", .str (pychars "VS Code returned status " ++ natChars status))]) := by
  refine ⟨responseOk_iff status, ?_, ?_, ?_, ?_⟩
  · intro hok
    rw [forward_to_vscode.eq_def]
    dsimp only
    rw [if_pos hok]
  · intro hok j
    rw [forward_to_vscode.eq_def]
    dsimp only
    rw [if_pos hok]
  · intro hok e
    rw [forward_to_vscode.eq_def]
    dsimp only
    rw [if_pos hok]
  · intro h1 h2 body
    rw [forward_to_vscode.eq_def]
    dsimp only
    rw [if_neg (by rw [responseOk_false status h1 h2]; exact Bool.false_ne_true)]

/-- C2 counterexample: a 304 response and a 600 response (neither 2xx, yet
both ok to requests, whose raise_for_status raises only for 400-599) are
reported with success true, and a 200 response whose body response.json()
rejects is reported with success false, refuting both directions of the
claim as stated. -/
theorem C2_forward_counterexample :
    forward_to_vscode (.response 304 .empty)
      = [(pychars "success", .bool true), (pychars "status", .num 304),
         (pychars "data", .null)]
    ∧ forward_to_vscode (.response 600 .empty)
      = [(pychars "success", .bool true), (pychars "status", .num 600),
         (pychars "data", .null)]
    ∧ getField (forward_to_vscode
        (.response 200 (.invalid (pychars "Expecting value: line 1 column 1 (char 0)"))))
        (pychars "success")
      = some (.bool false) :=
  ⟨rfl, rfl, rfl⟩

/-- C2 witness: the four amended branches at concrete responses, with both
an ordinary 2xx status and an ok status of 600. -/
theorem C2_forward_witness :
    forward_to_vscode (.response 200 .empty)
      = [(pychars "success", .bool true), (pychars "status", .num 200),
         (pychars "data", .null)]
    ∧ forward_to_vscode (.response 600 (.jsonBody (.num 5)))
      = [(pychars "success", .bool true), (pychars "status", .num 600),
         (pychars "data", .num 5)]
    ∧ forward_to_vscode (.response 201 (.invalid (pychars "boom")))
      = [(pychars "success", .bool false), (pychars "error", .str (pychars "boom"))]
    ∧ forward_to_vscode (.response 500 .empty)
      = [(pychars "success", .bool false),
         (pychars "error", .str (pychars "VS Code returned status " ++ natChars 500))] :=
  ⟨(C2_forward 200).2.1 (by decide),
   (C2_forward 600).2.2.1 (by decide) (.num 5),
   (C2_forward 201).2.2.2.1 (by decide) (pychars "boom"),
   (C2_forward 500).2.2.2.2 (by decide) (by decide) .empty⟩

/-- C6: forward_to_vscode is total on its outcomes (the except clauses catch
every exception inside it, so nothing is raised to the dispatch loop), and
the three transport-error outcomes map to exactly the claimed dicts: a
connection error (which by the exception hierarchy also covers connect
timeouts) to "Cannot connect to VS Code extension. Is it running?", an
exceeded read timeout to "Request to VS Code extension timed out", and any
other exception to its str() text. -/
theorem C6_forward_errors (m : List Nat) :
    forward_to_vscode .connError
      = [(pychars "success", .bool false),
         (pychars "error", .str (pychars "Cannot connect to VS Code extension. Is it running?"))]
    ∧ forward_to_vscode .timeout
      = [(pychars "success", .bool false),
         (pychars "error", .str (pychars "Request to VS Code extension timed out"))]
    ∧ forward_to_vscode (.otherError m)
      = [(pychars "success", .bool false), (pychars "error", .str m)] :=
  ⟨rfl, rfl, rfl⟩

/-- C7: get_vscode_port falls back to 5000 when the port file is absent or
unreadable and returns the configured value otherwise; a get_port message is
answered with exactly the port response, both at the dispatch level and as
the single frame the loop emits for it. -/
theorem C7_get_port (fo so : HttpOutcome) :
    get_vscode_port .absent = .num 5000
    ∧ get_vscode_port .unreadable = .num 5000
    ∧ get_vscode_port (.content (.obj [(pychars "port", .num 5432)])) = .num 5432
    ∧ dispatch ⟨.absent, fo, so⟩ (.obj [(pychars "type", .str (pychars "get_port"))])
      = some (.obj [(pychars "type", .str (pychars "port")), (pychars "port", .num 5000)])
    ∧ dispatch ⟨.content (.obj [(pychars "port", .num 5432)]), fo, so⟩
        (.obj [(pychars "type", .str (pychars "get_port"))])
      = some (.obj [(pychars "type", .str (pychars "port")), (pychars "port", .num 5432)])
    ∧ mainLoop ⟨.absent, fo, so⟩
        (send_message (.obj [(pychars "type", .str (pychars "get_port"))]))
      = ([send_message (.obj [(pychars "type", .str (pychars "port")),
          (pychars "port", .num 5000)])], 0) := by
  refine ⟨rfl, rfl, rfl, rfl, rfl, ?_⟩
  rw [mainLoop_resp ⟨.absent, fo, so⟩
      (send_message (.obj [(pychars "type", .str (pychars "get_port"))]))
      (.obj [(pychars "type", .str (pychars "get_port"))])
      (.obj [(pychars "type", .str (pychars "port")), (pychars "port", .num 5000)])
      rfl rfl rfl,
    show restOf (send_message (.obj [(pychars "type", .str (pychars "get_port"))])) = []
      from rfl,
    mainLoop_nil]

/-- C9: a check_status message never raises (the bare except turns every
probe failure into False) and is answered with exactly one response
{type: status, vscode_running: b, port: N} where N is the port configured at
that moment and b holds iff the GET to /status came back with an ok status
(response.ok of requests: any status outside the 400-599 range that
raise_for_status raises for, so 600-999 count as ok); every connection
error, timeout or other exception gives b = false. -/
theorem C9_check_status (pf : PortFile) (fo so : HttpOutcome)
    (fields : List (List Nat × Json))
    (ht : getField fields (pychars "type") = some (.str (pychars "check_status"))) :
    dispatch ⟨pf, fo, so⟩ (.obj fields)
      = some (.obj [(pychars "type", .str (pychars "status")),
                    (pychars "vscode_running", .bool (statusOk so)),
                    (pychars "port", get_vscode_port pf)])
    ∧ (∀ st body, statusOk (.response st body) = responseOk st)
    ∧ (∀ st, responseOk st = true ↔ st < 400 ∨ 600 ≤ st)
    ∧ statusOk .connError = false
    ∧ statusOk .timeout = false
    ∧ (∀ m, statusOk (.otherError m) = false) := by
  refine ⟨?_, fun st body => rfl, responseOk_iff, rfl, rfl, fun m => rfl⟩
  rw [dispatch.eq_def]
  dsimp only
  rw [ht]
  rw [if_neg (by decide), if_neg (by decide), if_neg (by decide), if_pos (by decide)]

/-- C9 witness: a concrete check_status message against a 200 probe. -/
theorem C9_check_status_witness :
    dispatch ⟨.absent, .connError, .response 200 .empty⟩
        (.obj [(pychars "type", .str (pychars "check_status"))])
      = some (.obj [(pychars "type", .str (pychars "status")),
                    (pychars "vscode_running", .bool true),
                    (pychars "port", .num 5000)]) :=
  (C9_check_status .absent .connError (.response 200 .empty)
    [(pychars "type", .str (pychars "check_status"))] rfl).1

/-- C3 (amended): for every decoded message that is a truthy (non-empty)
JSON object whose type field is not equal to the string ping, get_port,
forward or check_status, the dispatch answers with exactly
{type: error, error: "Unknown message type: " + str(type)} and the loop
emits exactly that one frame before continuing. As stated over every
decoded message the claim fails: a falsy message such as the empty object
is skipped with no response at all, and a truthy non-object message makes
message.get raise, killing the process with exit code 1 (see the
counterexample). -/
theorem C3_unknown_type (env : Env) (input : List Nat)
    (fields : List (List Nat × Json)) (rest : List Nat)
    (hr : read_message input = (.msg (.obj fields), rest))
    (hne : fields ≠ [])
    (h1 : ¬ isType (getField fields (pychars "type")) (pychars "ping") = true)
    (h2 : ¬ isType (getField fields (pychars "type")) (pychars "get_port") = true)
    (h3 : ¬ isType (getField fields (pychars "type")) (pychars "forward") = true)
    (h4 : ¬ isType (getField fields (pychars "type")) (pychars "check_status") = true) :
    dispatch env (.obj fields)
      = some (.obj [(pychars "type", .str (pychars "error")),
          (pychars "error", .str (unknownTypeMsg (getField fields (pychars "type"))))])
    ∧ mainLoop env input
      = (send_message (.obj [(pychars "type", .str (pychars "error")),
          (pychars "error", .str (unknownTypeMsg (getField fields (pychars "type"))))])
          :: (mainLoop env rest).1, (mainLoop env rest).2) := by
  have hd : dispatch env (.obj fields)
      = some (.obj [(pychars "type", .str (pychars "error")),
          (pychars "error", .str (unknownTypeMsg (getField fields (pychars "type"))))]) := by
    rw [dispatch.eq_def]
    dsimp only
    rw [if_neg h1, if_neg h2, if_neg h3, if_neg h4]
  refine ⟨hd, ?_⟩
  have hread : readResult input = .msg (.obj fields) := by
    have := congrArg Prod.fst hr
    simpa [read_message] using this
  have hrest : restOf input = rest := by
    have := congrArg Prod.snd hr
    simpa [read_message] using this
  have hfalsy : falsy (.obj fields) = false := by
    cases fields with
    | nil => exact absurd rfl hne
    | cons p ps => rfl
  rw [mainLoop_resp env input (.obj fields) _ hread hfalsy hd, hrest]

/-- C3 counterexample: a frame holding the empty object (a decoded message
whose type is not one of the recognized four) produces no response frame at
all, and a frame holding the number 5 (also lacking a recognized type)
makes the loop raise AttributeError and die with exit code 1 instead of
answering; neither matches the claimed error response. -/
theorem C3_unknown_type_counterexample :
    mainLoop envA (send_message (.obj [])) = ([], 0)
    ∧ mainLoop envA (send_message (.num 5)) = ([], 1) := by
  constructor
  · rw [mainLoop_skip envA (send_message (.obj [])) (Or.inr ⟨.obj [], rfl, rfl⟩),
      show restOf (send_message (.obj [])) = [] from rfl, mainLoop_nil]
  · exact mainLoop_fatal envA _ (.num 5) rfl rfl rfl

/-- C3 witness: the exact error frame for a concrete unknown type. -/
theorem C3_unknown_type_witness :
    mainLoop envA (send_message (.obj [(pychars "type", .str (pychars "bogus"))]))
      = ([send_message (.obj [(pychars "type", .str (pychars "error")),
          (pychars "error", .str (pychars "Unknown message type: bogus"))])], 0) := by
  have h := (C3_unknown_type envA
    (send_message (.obj [(pychars "type", .str (pychars "bogus"))]))
    [(pychars "type", .str (pychars "bogus"))] [] rfl (by simp)
    (by decide) (by decide) (by decide) (by decide)).2
  rw [h, mainLoop_nil]
  rfl

/-- C4 (amended): read_message returns the None outcome, and the loop
continues without emitting a frame, on every malformed length prefix (1 to
3 bytes), invalid UTF-8 payload, and invalid JSON payload. A declared
length exceeding the available bytes merely truncates the read; when the
truncated bytes fail to parse this is a decode failure as claimed, but when
they happen to parse, the value is returned as a message, and a truthy
non-dict value then crashes the process with exit code 1 (see the
counterexample), so such inputs are not always treated as decode failures
and the process can crash. -/
theorem C4_decode_failure (env : Env) (input rest : List Nat) :
    ((0 < input.length → input.length < 4 → (read_message input).1 = .noMsg)
    ∧ (4 ≤ input.length →
        utf8Decode ((input.drop 4).take (unpack4 (input.take 4))) = none →
        (read_message input).1 = .noMsg)
    ∧ (∀ chars, 4 ≤ input.length →
        utf8Decode ((input.drop 4).take (unpack4 (input.take 4))) = some chars →
        loads chars = none → (read_message input).1 = .noMsg)
    ∧ (read_message input = (.noMsg, rest) → mainLoop env input = mainLoop env rest)) := by
  refine ⟨?_, ?_, ?_, ?_⟩
  · intro h0 h4
    show readResult input = .noMsg
    rw [readResult, if_neg (by simp [List.isEmpty_iff]; intro hx; subst hx; simp at h0),
      if_pos h4]
  · intro h4 hdec
    show readResult input = .noMsg
    rw [readResult, if_neg (by simp [List.isEmpty_iff]; intro hx; subst hx; simp at h4),
      if_neg (by omega), hdec]
  · intro chars h4 hdec hload
    show readResult input = .noMsg
    rw [readResult, if_neg (by simp [List.isEmpty_iff]; intro hx; subst hx; simp at h4),
      if_neg (by omega), hdec]
    dsimp only
    rw [hload]
  · intro hr
    have hread : readResult input = .noMsg := by
      have := congrArg Prod.fst hr
      simpa [read_message] using this
    have hrest : restOf input = rest := by
      have := congrArg Prod.snd hr
      simpa [read_message] using this
    rw [mainLoop_skip env input (Or.inl hread), hrest]

/-- C4 counterexample: the frame declaring length 5 with one available byte
"5" is decoded as the message 5 (the truncated read parses), not the None
outcome, and the loop then dies with exit code 1 on it. -/
theorem C4_decode_failure_counterexample :
    read_message (pack4 5 ++ [53]) = (.msg (.num 5), [])
    ∧ mainLoop envA (pack4 5 ++ [53]) = ([], 1) :=
  ⟨rfl, mainLoop_fatal envA _ (.num 5) rfl rfl rfl⟩

/-- C4 witness: the three failure classes and the continue behavior at
concrete inputs: a 1-byte prefix, an invalid UTF-8 payload, a valid UTF-8
but invalid JSON payload, and the loop equation on the first. -/
theorem C4_decode_failure_witness :
    (read_message [255]).1 = .noMsg
    ∧ (read_message (pack4 1 ++ [255])).1 = .noMsg
    ∧ (read_message (pack4 1 ++ [123])).1 = .noMsg
    ∧ mainLoop envA [255] = mainLoop envA [] :=
  ⟨(C4_decode_failure envA [255] []).1 (by decide) (by decide),
   (C4_decode_failure envA (pack4 1 ++ [255]) []).2.1 (by decide) rfl,
   (C4_decode_failure envA (pack4 1 ++ [123]) []).2.2.1 [123] (by decide) rfl rfl,
   (C4_decode_failure envA [255] []).2.2.2 rfl⟩

/-- C10: a message that decodes to a falsy value is treated exactly like a
decode failure: the loop emits nothing for it and continues with the rest
of the stream, so it reaches no handler, including the unknown-type error
response; and the falsy values are exactly the empty object, false, null,
zero, the empty string and the empty array. -/
theorem C10_falsy_skip (env : Env) (input rest : List Nat) (j : Json) :
    (read_message input = (.msg j, rest) → falsy j = true →
      mainLoop env input = mainLoop env rest)
    ∧ (falsy j = true ↔
        j = .null ∨ j = .bool false ∨ j = .num 0 ∨ j = .str [] ∨ j = .arr [] ∨ j = .obj []) := by
  constructor
  · intro hr hf
    have hread : readResult input = .msg j := by
      have := congrArg Prod.fst hr
      simpa [read_message] using this
    have hrest : restOf input = rest := by
      have := congrArg Prod.snd hr
      simpa [read_message] using this
    rw [mainLoop_skip env input (Or.inr ⟨j, hread, hf⟩), hrest]
  · cases j with
    | null => simp [falsy]
    | bool b => cases b <;> simp [falsy]
    | num n => simp [falsy]
    | str s => simp [falsy]
    | arr l => simp [falsy]
    | obj l => simp [falsy]

/-- C10 witness: the empty-object frame is skipped with no output. -/
theorem C10_falsy_skip_witness :
    mainLoop envA (send_message (.obj [])) = mainLoop envA []
    ∧ falsy (.obj []) = true :=
  ⟨(C10_falsy_skip envA (send_message (.obj [])) [] (.obj [])).1 rfl rfl, rfl⟩
